import Mathlib

/-!
Fund-transfer sample application (`core/ledgernext/kvledger/example/app.go`)

A shallow embedding of the sample payment application and of the collaborators it
talks to, followed by theorems about `Init`, `TransferFunds`, `QueryBalances`,
`toBytes` and `toInt`.

Conventions of the embedding

* A Go `byte` is a `Fin 256`; a `[]byte` is a list of bytes (`nil` and the empty slice
  are both `[]`).
* A Go `int` is 64 bits wide.  It is represented by an `Int`; every arithmetic
  operation of the source is followed by `wrapInt`, the wrap-around of two-complement arithmetic.
  A `uint64` is a `Nat` below `2 ^ 64`.
* The ledger is an external collaborator reached through interfaces.  Its answers are
  given by a `ValidatedLedger` record of functions that receive the list of calls made
  so far in the current operation, so an answer may depend on everything that
  happened before it.  Each operation returns the calls it made, in order, next to
  its Go results.
* A Go result pair `(value, error)` is kept as two optional fields, `none` being `nil`.
-/

set_option maxRecDepth 8000

namespace Example

/-! ## Bytes and machine integers -/

/-- A Go `byte`. -/
abbrev Byte := Fin 256

/-- A Go `[]byte`. -/
abbrev Bytes := List Byte

/-- Conversion `uint8(n)`: keeps the low eight bits. -/
def byteOfNat (n : Nat) : Byte := ⟨n % 256, Nat.mod_lt _ (by decide)⟩

/-- Range of the 64-bit Go `int`. -/
def isInt64 (z : Int) : Prop := -2 ^ 63 ≤ z ∧ z < 2 ^ 63

instance (z : Int) : Decidable (isInt64 z) := by unfold isInt64; infer_instance

/-- Wrap-around (two-complement) of an integer result into the 64-bit `int` range. -/
def wrapInt (z : Int) : Int := (z + 2 ^ 63) % 2 ^ 64 - 2 ^ 63

/-- Conversion `uint64(balance)` of an `int`: the value modulo `2 ^ 64`. -/
def uint64OfInt (z : Int) : Nat := (z % 2 ^ 64).toNat

/-- Conversion `int(v)` of a `uint64`: the bit pattern read as a signed value. -/
def intOfUint64 (v : Nat) : Int := if v < 2 ^ 63 then (v : Int) else (v : Int) - 2 ^ 64

/-! ## Varint codec of the protobuf library -/

/-- Modelled from the spec: the loop of `proto.EncodeVarint` (vendored protobuf library,
not under `src/`), the "compact unsigned varint scheme" of the spec: while the value
exceeds 127 emit its low seven bits with the continuation bit `0x80` set and shift
right by seven; the last byte carries the remaining bits with the high bit clear.
A `uint64` needs at most nine continuation bytes, which is the first argument. -/
def encodeVarintLoop : Nat → Nat → Bytes
  | 0, x => [byteOfNat x]
  | fuel + 1, x =>
    if x > 127 then
      byteOfNat (0x80 ||| (x &&& 0x7F)) :: encodeVarintLoop fuel (x >>> 7)
    else [byteOfNat x]

/-- Modelled from the spec: `proto.EncodeVarint(x uint64) []byte` of the vendored
protobuf library (not under `src/`): the unsigned varint encoding, at most ten bytes. -/
def EncodeVarint (x : Nat) : Bytes := encodeVarintLoop 9 x

/-- Modelled from the spec: the loop of `proto.DecodeVarint` (vendored protobuf library,
not under `src/`).  Arguments: the bytes not yet consumed, the current shift, the
accumulated value and the number of bytes consumed.  The loop runs while
`shift < 64`; running out of bytes, or out of shifts (an over-long run of
continuation bytes), yields `(0, 0)`: "decode of malformed bytes yields zero". -/
def decodeVarintLoop : Bytes → Nat → Nat → Nat → Nat × Nat
  | [], _, _, _ => (0, 0)
  | b :: rest, shift, x, n =>
    if shift < 64 then
      let x1 := (x ||| ((b.val &&& 0x7F) <<< shift)) % 2 ^ 64
      if b.val &&& 0x80 = 0 then (x1, n + 1)
      else decodeVarintLoop rest (shift + 7) x1 (n + 1)
    else (0, 0)

/-- Modelled from the spec: `proto.DecodeVarint(buf []byte) (x uint64, n int)` of the
vendored protobuf library (not under `src/`): the decoded value and the number of
bytes consumed, `(0, 0)` on malformed input. -/
def DecodeVarint (buf : Bytes) : Nat × Nat := decodeVarintLoop buf 0 0 0

/-- Source `toBytes`: `proto.EncodeVarint(uint64(balance))`. -/
def toBytes (balance : Int) : Bytes := EncodeVarint (uint64OfInt balance)

/-- Source `toInt`: `v, _ := proto.DecodeVarint(balanceBytes); return int(v)`. -/
def toInt (balanceBytes : Bytes) : Int := intOfUint64 (DecodeVarint balanceBytes).1

/-! ## Errors, transactions and the ledger collaborator -/

/-- A Go `error` value seen by a caller of the application: either an error handed
back by the ledger collaborator, or the error built by `fmt.Errorf` in
`TransferFunds`, which carries the account, its balance and the requested amount. -/
inductive Error where
  | ledger (msg : String)
  | notEnoughBalance (account : String) (balance : Int) (request : Int)
deriving DecidableEq

/-- Text of an error; for the `fmt.Errorf` error, the format string of the source. -/
def Error.message : Error → String
  | .ledger msg => msg
  | .notEnoughBalance account balance request =>
    "Not enough balance in account [" ++ account ++ "]. Balance = ["
      ++ toString balance ++ "], transfer request = [" ++ toString request ++ "]"

/-- Modelled from the spec: `protos.Endorsement` (declared outside `src/`), the element
type of the "empty endorsement list placeholder"; the application never builds one. -/
structure Endorsement where
  raw : Bytes
deriving DecidableEq

/-- Modelled from the spec: `protos.EndorsedAction` (declared outside `src/`): "raw
write-set bytes, empty endorsement list placeholder, empty proposal-bytes
placeholder", under the field names the source assigns. -/
structure EndorsedAction where
  ActionBytes : Bytes
  Endorsements : List Endorsement
  ProposalBytes : Bytes
deriving DecidableEq

/-- Modelled from the spec: `protos.Transaction2` (declared outside `src/`): an "ordered
sequence of proposed actions". -/
structure Transaction2 where
  EndorsedActions : List EndorsedAction
deriving DecidableEq

/-- One call on the ledger collaborator: `NewTxSimulator` and `NewQueryExecutor` on the
ledger, `GetState`, `SetState`, `GetTxSimulationResults` and `Done` on the
simulator, `QueryGetState` for `GetState` on the query executor. -/
inductive Call where
  | NewTxSimulator
  | GetState (ns key : String)
  | SetState (ns key : String) (value : Bytes)
  | GetTxSimulationResults
  | Done
  | NewQueryExecutor
  | QueryGetState (ns key : String)
deriving DecidableEq

/-- The interfaces `ledger.ValidatedLedger`, `ledger.TxSimulator` and
`ledger.QueryExecutor` as far as the application uses them.  Every answer is a
function of the calls made before it in the current operation; `.error msg` is a
non-nil Go error.  `SetState` and `Done` return nothing and so need no field. -/
structure ValidatedLedger where
  NewTxSimulator : List Call → Except String Unit
  GetState : List Call → String → String → Except String Bytes
  GetTxSimulationResults : List Call → Except String Bytes
  NewQueryExecutor : List Call → Except String Unit
  QueryGetState : List Call → String → String → Except String Bytes

/-- Source `App`. -/
structure App where
  name : String
  ledger : ValidatedLedger

/-- Source `ConstructAppInstance`. -/
def ConstructAppInstance (ledger : ValidatedLedger) : App := ⟨"PaymentApp", ledger⟩

/-- What a Go function of result type `(T, error)` hands back, with the calls it made
on the collaborator: `value = none` is a nil first result, `err = none` a nil error. -/
structure Outcome (α : Type) where
  value : Option α
  err : Option Error
  trace : List Call

/-- Effect of `defer txSimulator.Done()`: whatever the rest of the function returns,
`Done` is called last. -/
def deferDone {α : Type} (o : Outcome α) : Outcome α :=
  { o with trace := o.trace ++ [Call.Done] }

/-! ## The application -/

/-- Source `constructTransaction`. -/
def constructTransaction (simulationResults : Bytes) : Transaction2 :=
  { EndorsedActions :=
      [{ ActionBytes := simulationResults, Endorsements := [], ProposalBytes := [] }] }

/-- Source `Init`.  The Go map `initialBalances` is given by its entries in the order
in which `range` visits them, an order Go leaves unspecified. -/
def Init (app : App) (initialBalances : List (String × Int)) : Outcome Transaction2 :=
  match app.ledger.NewTxSimulator [] with
  | .error e => ⟨none, some (.ledger e), [Call.NewTxSimulator]⟩
  | .ok _ =>
    deferDone <|
      let t1 := Call.NewTxSimulator ::
        initialBalances.map (fun kv => Call.SetState app.name kv.1 (toBytes kv.2))
      match app.ledger.GetTxSimulationResults t1 with
      | .error e => ⟨none, some (.ledger e), t1 ++ [Call.GetTxSimulationResults]⟩
      | .ok txSimulationResults =>
        ⟨some (constructTransaction txSimulationResults), none,
          t1 ++ [Call.GetTxSimulationResults]⟩

/-- Source `TransferFunds`. -/
def TransferFunds (app : App) (fromAccount toAccount : String) (transferAmt : Int) :
    Outcome Transaction2 :=
  match app.ledger.NewTxSimulator [] with
  | .error e => ⟨none, some (.ledger e), [Call.NewTxSimulator]⟩
  | .ok _ =>
    deferDone <|
      let t1 := [Call.NewTxSimulator]
      let t2 := t1 ++ [Call.GetState app.name fromAccount]
      match app.ledger.GetState t1 app.name fromAccount with
      | .error e => ⟨none, some (.ledger e), t2⟩
      | .ok balFromBytes =>
        let balFrom := toInt balFromBytes
        if wrapInt (balFrom - transferAmt) < 0 then
          ⟨none, some (.notEnoughBalance fromAccount balFrom transferAmt), t2⟩
        else
          let t3 := t2 ++ [Call.GetState app.name toAccount]
          match app.ledger.GetState t2 app.name toAccount with
          | .error e => ⟨none, some (.ledger e), t3⟩
          | .ok balToBytes =>
            let balTo := toInt balToBytes
            let t5 := t3 ++
              [Call.SetState app.name fromAccount (toBytes (wrapInt (balFrom - transferAmt))),
               Call.SetState app.name toAccount (toBytes (wrapInt (balTo + transferAmt)))]
            match app.ledger.GetTxSimulationResults t5 with
            | .error e => ⟨none, some (.ledger e), t5 ++ [Call.GetTxSimulationResults]⟩
            | .ok txSimulationResults =>
              ⟨some (constructTransaction txSimulationResults), none,
                t5 ++ [Call.GetTxSimulationResults]⟩

/-- The `for` loop of `QueryBalances`: the accounts from index `i` on, the index `i`,
the calls made so far and the slice `balances`, whose entry `i` is assigned. -/
def queryLoop (app : App) : List String → Nat → List Call → List Int → Outcome (List Int)
  | [], _, tr, balances => ⟨some balances, none, tr⟩
  | account :: rest, i, tr, balances =>
    match app.ledger.QueryGetState tr app.name account with
    | .error e => ⟨none, some (.ledger e), tr ++ [Call.QueryGetState app.name account]⟩
    | .ok balBytes =>
      queryLoop app rest (i + 1) (tr ++ [Call.QueryGetState app.name account])
        (balances.set i (toInt balBytes))

/-- Source `QueryBalances`; `balances := make([]int, len(accounts))` is a slice of
zeroes. -/
def QueryBalances (app : App) (accounts : List String) : Outcome (List Int) :=
  match app.ledger.NewQueryExecutor [] with
  | .error e => ⟨none, some (.ledger e), [Call.NewQueryExecutor]⟩
  | .ok _ =>
    queryLoop app accounts 0 [Call.NewQueryExecutor] (List.replicate accounts.length 0)

/-! ## Ledger states, used to state the claims about balances -/

/-- Contents of the ledger: the bytes stored under a namespace and a key; a key never
written holds no bytes. -/
abbrev LedgerState := String → String → Bytes

/-- Effect of one call on the ledger contents once the simulation is committed: a
`SetState` overwrites its key, every other call leaves the contents alone. -/
def applyCall (st : LedgerState) : Call → LedgerState
  | .SetState ns key value => fun ns1 key1 => if ns1 = ns ∧ key1 = key then value else st ns1 key1
  | _ => st

/-- The writes of a trace applied to a state, in the order they were issued. -/
def applyWrites (st : LedgerState) (tr : List Call) : LedgerState := tr.foldl applyCall st

/-- Decoded balance of an account of the payment application in a ledger state. -/
def balance (st : LedgerState) (account : String) : Int := toInt (st "PaymentApp" account)

/-- Whether a call is a write. -/
def Call.isSetState : Call → Bool
  | .SetState _ _ _ => true
  | _ => false

/-- The writes of a trace, in order. -/
def writesOf (tr : List Call) : List Call := tr.filter Call.isSetState

/-- A ledger whose reads never fail and return the contents of `st`, and whose
simulation results are the written values one after the other (a stand-in for the
serialisation of the collaborator). -/
def memLedger (st : LedgerState) : ValidatedLedger where
  NewTxSimulator _ := .ok ()
  GetState _ ns key := .ok (st ns key)
  GetTxSimulationResults tr :=
    .ok ((writesOf tr).flatMap fun c => match c with
      | .SetState _ _ value => value
      | _ => [])
  NewQueryExecutor _ := .ok ()
  QueryGetState _ ns key := .ok (st ns key)

/-- The ledger contents holding `toBytes` of each listed balance under `PaymentApp`. -/
def stateOf (balances : List (String × Int)) : LedgerState :=
  applyWrites (fun _ _ => [])
    (balances.map fun kv => Call.SetState "PaymentApp" kv.1 (toBytes kv.2))

/-- Reads of the simulator return the contents of `st` whenever they succeed. -/
def readsFrom (L : ValidatedLedger) (st : LedgerState) : Prop :=
  ∀ tr ns key b, L.GetState tr ns key = .ok b → b = st ns key

/-- The calls of a transfer that reaches its writes. -/
def transferCalls (fromAccount toAccount : String) (newFrom newTo : Int) : List Call :=
  [Call.NewTxSimulator, Call.GetState "PaymentApp" fromAccount,
   Call.GetState "PaymentApp" toAccount,
   Call.SetState "PaymentApp" fromAccount (toBytes newFrom),
   Call.SetState "PaymentApp" toAccount (toBytes newTo),
   Call.GetTxSimulationResults, Call.Done]

/-- The ledger in which no key was ever written. -/
def emptyState : LedgerState := fun _ _ => []

/-- The ledger after scenario 1 of the spec: A holds 100 and B holds 50. -/
def scenarioState : LedgerState := stateOf [("A", 100), ("B", 50)]

/-- Equality of two answers of the collaborator is decidable. -/
instance instDecidableEqAnswer {ε α : Type} [DecidableEq ε] [DecidableEq α] :
    DecidableEq (Except ε α)
  | .ok a, .ok b =>
    if h : a = b then isTrue (congrArg Except.ok h)
    else isFalse (fun h2 => h (Except.ok.inj h2))
  | .error a, .error b =>
    if h : a = b then isTrue (congrArg Except.error h)
    else isFalse (fun h2 => h (Except.error.inj h2))
  | .ok _, .error _ => isFalse (fun h => Except.noConfusion h)
  | .error _, .ok _ => isFalse (fun h => Except.noConfusion h)

/-- The reads of a query of the given accounts, in order. -/
def queryCalls (accounts : List String) : List Call :=
  accounts.map (Call.QueryGetState "PaymentApp")

/-- The writes `Init` issues for the entries of its map, in the order of the entries. -/
def initWrites (entries : List (String × Int)) : List Call :=
  entries.map fun kv => Call.SetState "PaymentApp" kv.1 (toBytes kv.2)

/-- A ledger over the contents `st` with injected faults: opening a simulator or a query
executor fails with `openErr` when it is given, a read of a key fails with
`readErr key` when that is given, and the extraction of the simulation results
fails with `resultsErr` when it is given; otherwise it answers as `memLedger st`. -/
def faultyLedger (st : LedgerState) (openErr : Option String)
    (readErr : String → Option String) (resultsErr : Option String) : ValidatedLedger where
  NewTxSimulator tr :=
    match openErr with
    | some e => .error e
    | none => (memLedger st).NewTxSimulator tr
  GetState tr ns key :=
    match readErr key with
    | some e => .error e
    | none => (memLedger st).GetState tr ns key
  GetTxSimulationResults tr :=
    match resultsErr with
    | some e => .error e
    | none => (memLedger st).GetTxSimulationResults tr
  NewQueryExecutor tr :=
    match openErr with
    | some e => .error e
    | none => (memLedger st).NewQueryExecutor tr
  QueryGetState tr ns key :=
    match readErr key with
    | some e => .error e
    | none => (memLedger st).QueryGetState tr ns key

/-- The fault that makes every read of key `B` fail. -/
def failOnB (key : String) : Option String := if key = "B" then some "read failed" else none

/-- The fault that makes no read fail. -/
def noReadFault (_ : String) : Option String := none

/-! ## The varint codec round trip -/


theorem lor_shiftLeft_eq_add {s acc : Nat} (h : acc < 2 ^ s) (c : Nat) :
    acc ||| (c <<< s) = acc + c * 2 ^ s := by
  rw [Nat.shiftLeft_eq, Nat.lor_comm, Nat.mul_comm c, ← Nat.mul_add_lt_is_or h c]
  omega

theorem land_7F (x : Nat) : x &&& 0x7F = x % 128 :=
  Nat.and_pow_two_sub_one_eq_mod x 7

theorem contByte_spec (x : Nat) :
    (byteOfNat (0x80 ||| (x &&& 0x7F))).val &&& 0x7F = x % 128 ∧
      (byteOfNat (0x80 ||| (x &&& 0x7F))).val &&& 0x80 ≠ 0 := by
  have key : ∀ c : Fin 128, ((0x80 ||| c.val) % 256) &&& 0x7F = c.val ∧
      ((0x80 ||| c.val) % 256) &&& 0x80 ≠ 0 := by decide
  have hlt : x % 128 < 128 := Nat.mod_lt _ (by decide)
  have := key ⟨x % 128, hlt⟩
  simpa [byteOfNat, land_7F] using this

theorem lastByte_spec {x : Nat} (h : x ≤ 127) :
    (byteOfNat x).val &&& 0x7F = x ∧ (byteOfNat x).val &&& 0x80 = 0 := by
  have key : ∀ c : Fin 128, (c.val % 256) &&& 0x7F = c.val ∧ (c.val % 256) &&& 0x80 = 0 := by
    decide
  have := key ⟨x, by omega⟩
  simpa [byteOfNat] using this

theorem acc_bound {s acc y : Nat} (hs : s ≤ 64) (hacc : acc < 2 ^ s) (hy : y < 2 ^ (64 - s)) :
    acc + y * 2 ^ s < 2 ^ 64 := by
  have hpow : 2 ^ (64 - s) * 2 ^ s = 2 ^ 64 := by
    rw [← pow_add]; congr 1; omega
  have h1 : (y + 1) * 2 ^ s ≤ 2 ^ (64 - s) * 2 ^ s := Nat.mul_le_mul_right _ hy
  have h2 : (y + 1) * 2 ^ s = y * 2 ^ s + 2 ^ s := by ring
  omega

theorem decode_encode_loop (fuel : Nat) : ∀ (s y acc n : Nat), s + 7 * fuel = 63 →
    y < 2 ^ (64 - s) → acc < 2 ^ s →
    (decodeVarintLoop (encodeVarintLoop fuel y) s acc n).1 = acc + y * 2 ^ s := by
  induction fuel with
  | zero =>
    intro s y acc n hs hy hacc
    have hs63 : s = 63 := by omega
    subst hs63
    have hy1 : y ≤ 127 := by
      have : y < 2 := by simpa using hy
      omega
    obtain ⟨h7, h8⟩ := lastByte_spec hy1
    have hb := acc_bound (by omega) hacc hy
    simp only [encodeVarintLoop, decodeVarintLoop, if_pos (by decide : 63 < 64), h7, h8,
      lor_shiftLeft_eq_add hacc, Nat.mod_eq_of_lt hb]
    simp
  | succ fuel ih =>
    intro s y acc n hs hy hacc
    have hs64 : s < 64 := by omega
    have hb := acc_bound (by omega) hacc hy
    by_cases hbig : y > 127
    · obtain ⟨h7, h8⟩ := contByte_spec y
      have hacc1 : acc + y % 128 * 2 ^ s < 2 ^ (s + 7) := by
        have hm : y % 128 < 128 := Nat.mod_lt _ (by decide)
        have h1 : (y % 128 + 1) * 2 ^ s ≤ 128 * 2 ^ s := Nat.mul_le_mul_right _ hm
        have h2 : (y % 128 + 1) * 2 ^ s = y % 128 * 2 ^ s + 2 ^ s := by ring
        have h3 : 2 ^ (s + 7) = 128 * 2 ^ s := by rw [pow_add]; ring
        omega
      have hlt64 : acc + y % 128 * 2 ^ s < 2 ^ 64 :=
        lt_of_lt_of_le hacc1 (Nat.pow_le_pow_right (by decide) (by omega))
      have hy1 : y >>> 7 < 2 ^ (64 - (s + 7)) := by
        rw [Nat.shiftRight_eq_div_pow]
        apply Nat.div_lt_of_lt_mul
        have : 2 ^ 7 * 2 ^ (64 - (s + 7)) = 2 ^ (64 - s) := by
          rw [← pow_add]; congr 1; omega
        omega
      have hrec := ih (s + 7) (y >>> 7) (acc + y % 128 * 2 ^ s) (n + 1) (by omega) hy1 hacc1
      simp only [encodeVarintLoop, if_pos hbig, decodeVarintLoop, if_pos hs64, h7,
        lor_shiftLeft_eq_add hacc, Nat.mod_eq_of_lt hlt64, if_neg h8, hrec]
      rw [Nat.shiftRight_eq_div_pow, pow_add]
      have := Nat.div_add_mod y 128
      have e : (2:Nat) ^ 7 = 128 := by norm_num
      rw [e]
      calc acc + y % 128 * 2 ^ s + y / 128 * (2 ^ s * 128)
          = acc + (128 * (y / 128) + y % 128) * 2 ^ s := by ring
        _ = acc + y * 2 ^ s := by rw [this]
    · have hy1 : y ≤ 127 := by omega
      obtain ⟨h7, h8⟩ := lastByte_spec hy1
      simp only [encodeVarintLoop, if_neg hbig, decodeVarintLoop, if_pos hs64, h7, h8,
        lor_shiftLeft_eq_add hacc, Nat.mod_eq_of_lt hb]
      simp

theorem DecodeVarint_EncodeVarint {x : Nat} (h : x < 2 ^ 64) :
    (DecodeVarint (EncodeVarint x)).1 = x := by
  have := decode_encode_loop 9 0 x 0 0 (by norm_num) (by simpa using h) (by norm_num)
  simpa [DecodeVarint, EncodeVarint] using this

theorem uint64OfInt_lt (z : Int) : uint64OfInt z < 2 ^ 64 := by
  unfold uint64OfInt
  have h1 : 0 ≤ z % 2 ^ 64 := Int.emod_nonneg _ (by norm_num)
  have h2 : z % 2 ^ 64 < 2 ^ 64 := Int.emod_lt_of_pos _ (by norm_num)
  omega

theorem intOfUint64_uint64OfInt (z : Int) : intOfUint64 (uint64OfInt z) = wrapInt z := by
  unfold intOfUint64 uint64OfInt wrapInt
  have h1 : 0 ≤ z % 2 ^ 64 := Int.emod_nonneg _ (by norm_num)
  have h2 : z % 2 ^ 64 < 2 ^ 64 := Int.emod_lt_of_pos _ (by norm_num)
  split <;> omega

/-- Decoding an encoded `int` gives the value wrapped into the 64-bit range. -/
theorem toInt_toBytes (z : Int) : toInt (toBytes z) = wrapInt z := by
  unfold toInt toBytes
  rw [DecodeVarint_EncodeVarint (uint64OfInt_lt z), intOfUint64_uint64OfInt]

theorem wrapInt_of_isInt64 {z : Int} (h : isInt64 z) : wrapInt z = z := by
  unfold isInt64 at h
  unfold wrapInt
  omega

theorem wrapInt_isInt64 (z : Int) : isInt64 (wrapInt z) := by
  unfold isInt64 wrapInt
  omega

theorem toBytes_wrapInt (z : Int) : toBytes (wrapInt z) = toBytes z := by
  unfold toBytes uint64OfInt wrapInt
  congr 2
  omega

/-! ## Runs of `TransferFunds` -/

theorem TransferFunds_past_check {L : ValidatedLedger} {f t : String} {a : Int} {u : Unit}
    {bf bt : Bytes} (hopen : L.NewTxSimulator [] = .ok u)
    (hf : L.GetState [Call.NewTxSimulator] "PaymentApp" f = .ok bf)
    (hchk : ¬ wrapInt (toInt bf - a) < 0)
    (ht : L.GetState [Call.NewTxSimulator, Call.GetState "PaymentApp" f] "PaymentApp" t
      = .ok bt) :
    (TransferFunds (ConstructAppInstance L) f t a).trace
      = transferCalls f t (wrapInt (toInt bf - a)) (wrapInt (toInt bt + a)) := by
  simp only [TransferFunds, ConstructAppInstance, hopen, hf, ht, if_neg hchk, deferDone,
    transferCalls, List.cons_append, List.nil_append]
  split <;> rfl

theorem TransferFunds_success {L : ValidatedLedger} {f t : String} {a : Int}
    (h : (TransferFunds (ConstructAppInstance L) f t a).value ≠ none) :
    ∃ bf bt r, L.NewTxSimulator [] = .ok () ∧
      L.GetState [Call.NewTxSimulator] "PaymentApp" f = .ok bf ∧
      ¬ wrapInt (toInt bf - a) < 0 ∧
      L.GetState [Call.NewTxSimulator, Call.GetState "PaymentApp" f] "PaymentApp" t = .ok bt ∧
      L.GetTxSimulationResults
        [Call.NewTxSimulator, Call.GetState "PaymentApp" f, Call.GetState "PaymentApp" t,
         Call.SetState "PaymentApp" f (toBytes (wrapInt (toInt bf - a))),
         Call.SetState "PaymentApp" t (toBytes (wrapInt (toInt bt + a)))] = .ok r ∧
      (TransferFunds (ConstructAppInstance L) f t a).value = some (constructTransaction r) ∧
      (TransferFunds (ConstructAppInstance L) f t a).err = none := by
  simp only [TransferFunds, ConstructAppInstance, deferDone] at h ⊢
  split at h
  · exact absurd rfl h
  · rename_i u hopen
    split at h
    · exact absurd rfl h
    · rename_i bf hf
      split at h
      · exact absurd rfl h
      · rename_i hchk
        split at h
        · exact absurd rfl h
        · rename_i bt ht
          split at h
          · exact absurd rfl h
          · rename_i r hr
            refine ⟨bf, bt, r, ?_⟩
            simp only [List.cons_append, List.nil_append] at hf ht hr
            simp [hopen, hf, ht, hr, hchk]

theorem readsFrom_memLedger (st : LedgerState) : readsFrom (memLedger st) st := by
  intro tr ns key b h
  simp only [memLedger, Except.ok.injEq] at h
  exact h.symm

theorem applyWrites_transferCalls_to (st : LedgerState) (f t : String) (x y : Int) :
    applyWrites st (transferCalls f t x y) "PaymentApp" t = toBytes y := by
  simp [applyWrites, transferCalls, applyCall]

theorem applyWrites_transferCalls_from (st : LedgerState) {f t : String} (hne : f ≠ t)
    (x y : Int) : applyWrites st (transferCalls f t x y) "PaymentApp" f = toBytes x := by
  simp [applyWrites, transferCalls, applyCall, hne]

theorem writesOf_transferCalls (f t : String) (x y : Int) :
    writesOf (transferCalls f t x y)
      = [Call.SetState "PaymentApp" f (toBytes x), Call.SetState "PaymentApp" t (toBytes y)] := by
  simp [writesOf, transferCalls, Call.isSetState]

theorem wrapInt_wrapInt (z : Int) : wrapInt (wrapInt z) = wrapInt z :=
  wrapInt_of_isInt64 (wrapInt_isInt64 z)

/-- A successful transfer made the calls `transferCalls`, with the balances it read. -/
theorem TransferFunds_success_trace {L : ValidatedLedger} {f t : String} {a : Int}
    (h : (TransferFunds (ConstructAppInstance L) f t a).value ≠ none) :
    ∃ bf bt, L.GetState [Call.NewTxSimulator] "PaymentApp" f = .ok bf ∧
      L.GetState [Call.NewTxSimulator, Call.GetState "PaymentApp" f] "PaymentApp" t = .ok bt ∧
      0 ≤ wrapInt (toInt bf - a) ∧
      (TransferFunds (ConstructAppInstance L) f t a).trace
        = transferCalls f t (wrapInt (toInt bf - a)) (wrapInt (toInt bt + a)) := by
  obtain ⟨bf, bt, r, hopen, hf, hchk, ht, -, -, -⟩ := TransferFunds_success h
  exact ⟨bf, bt, hf, ht, not_lt.mp hchk, TransferFunds_past_check hopen hf hchk ht⟩

theorem TransferFunds_below {L : ValidatedLedger} {f t : String} {a : Int} {u : Unit}
    {bf : Bytes} (hopen : L.NewTxSimulator [] = .ok u)
    (hf : L.GetState [Call.NewTxSimulator] "PaymentApp" f = .ok bf)
    (hlt : wrapInt (toInt bf - a) < 0) :
    TransferFunds (ConstructAppInstance L) f t a
      = ⟨none, some (.notEnoughBalance f (toInt bf) a),
          [Call.NewTxSimulator, Call.GetState "PaymentApp" f, Call.Done]⟩ := by
  simp [TransferFunds, ConstructAppInstance, hopen, hf, hlt, deferDone]

theorem TransferFunds_not_below {L : ValidatedLedger} {f t : String} {a : Int} {u : Unit}
    {bf : Bytes} (hopen : L.NewTxSimulator [] = .ok u)
    (hf : L.GetState [Call.NewTxSimulator] "PaymentApp" f = .ok bf)
    (hge : ¬ wrapInt (toInt bf - a) < 0) (account : String) (bal request : Int) :
    (TransferFunds (ConstructAppInstance L) f t a).err
      ≠ some (.notEnoughBalance account bal request) := by
  simp only [TransferFunds, ConstructAppInstance, hopen, hf, if_neg hge, deferDone]
  split
  · simp
  · split <;> simp

theorem TransferFunds_rejected {L : ValidatedLedger} {f t : String} {a : Int}
    {account : String} {bal request : Int}
    (h : (TransferFunds (ConstructAppInstance L) f t a).err
      = some (.notEnoughBalance account bal request)) :
    ∃ bf, L.NewTxSimulator [] = .ok () ∧
      L.GetState [Call.NewTxSimulator] "PaymentApp" f = .ok bf ∧
      wrapInt (toInt bf - a) < 0 := by
  cases hopen : L.NewTxSimulator [] with
  | error e => simp [TransferFunds, ConstructAppInstance, hopen] at h
  | ok u =>
    cases hf : L.GetState [Call.NewTxSimulator] "PaymentApp" f with
    | error e => simp [TransferFunds, ConstructAppInstance, hopen, hf, deferDone] at h
    | ok bf =>
      by_cases hlt : wrapInt (toInt bf - a) < 0
      · exact ⟨bf, rfl, rfl, hlt⟩
      · exact absurd h (TransferFunds_not_below hopen hf hlt _ _ _)

theorem queryLoop_spec (L : ValidatedLedger) :
    ∀ (rest : List String) (i : Nat) (tr : List Call) (balances : List Int),
      i + rest.length ≤ balances.length →
      (∀ j (hj : j < rest.length), ∃ b,
        L.QueryGetState (tr ++ queryCalls (rest.take j)) "PaymentApp" rest[j] = .ok b) →
      ∃ out, queryLoop (ConstructAppInstance L) rest i tr balances
          = ⟨some out, none, tr ++ queryCalls rest⟩ ∧
        out.length = balances.length ∧
        (∀ k, k < i → out[k]? = balances[k]?) ∧
        (∀ j (hj : j < rest.length) (b : Bytes),
          L.QueryGetState (tr ++ queryCalls (rest.take j)) "PaymentApp" rest[j] = .ok b →
          out[i + j]? = some (toInt b)) := by
  intro rest
  induction rest with
  | nil =>
    intro i tr balances _ _
    refine ⟨balances, ?_, rfl, fun _ _ => rfl, ?_⟩
    · simp [queryLoop, queryCalls]
    · intro j hj; simp at hj
  | cons a rest ih =>
    intro i tr balances hlen hreads
    obtain ⟨b0, hb0⟩ := hreads 0 (by simp)
    simp only [List.take_zero, queryCalls, List.map_nil, List.append_nil,
      List.getElem_cons_zero] at hb0
    have hlen1 : i + 1 + rest.length ≤ (balances.set i (toInt b0)).length := by
      simp only [List.length_cons, List.length_set] at hlen ⊢; omega
    have hreads1 : ∀ j (hj : j < rest.length), ∃ b,
        L.QueryGetState ((tr ++ [Call.QueryGetState "PaymentApp" a]) ++ queryCalls (rest.take j))
          "PaymentApp" rest[j] = .ok b := by
      intro j hj
      obtain ⟨b, hb⟩ := hreads (j + 1) (by simp; omega)
      refine ⟨b, ?_⟩
      simpa [queryCalls] using hb
    obtain ⟨out, hrun, hlenout, hlow, hhigh⟩ :=
      ih (i + 1) (tr ++ [Call.QueryGetState "PaymentApp" a]) (balances.set i (toInt b0))
        hlen1 hreads1
    refine ⟨out, ?_, ?_, ?_, ?_⟩
    · simp only [queryLoop, ConstructAppInstance, hb0]
      simpa [ConstructAppInstance, queryCalls] using hrun
    · simpa using hlenout
    · intro k hk
      rw [hlow k (by omega), List.getElem?_set_ne (by omega)]
    · intro j hj b hb
      cases j with
      | zero =>
        simp only [List.take_zero, queryCalls, List.map_nil, List.append_nil,
          List.getElem_cons_zero] at hb
        have e : b = b0 := by
          rw [hb0] at hb; exact (Except.ok.inj hb).symm
        subst e
        rw [Nat.add_zero, hlow i (by omega), List.getElem?_set_self]
        simp only [List.length_cons] at hlen; omega
      | succ j =>
        have hj1 : j < rest.length := by simp at hj; omega
        have := hhigh j hj1 b (by simpa [queryCalls] using hb)
        rw [← this]; congr 1; omega

/-- What `QueryBalances` returns when the query executor opens and every read it
issues succeeds. -/
theorem QueryBalances_spec (L : ValidatedLedger) (accounts : List String)
    (hopen : L.NewQueryExecutor [] = .ok ())
    (hreads : ∀ i (hi : i < accounts.length), ∃ b,
      L.QueryGetState (Call.NewQueryExecutor :: queryCalls (accounts.take i))
        "PaymentApp" accounts[i] = .ok b) :
    ∃ bals, QueryBalances (ConstructAppInstance L) accounts
        = ⟨some bals, none, Call.NewQueryExecutor :: queryCalls accounts⟩ ∧
      bals.length = accounts.length ∧
      ∀ i (hi : i < accounts.length) (b : Bytes),
        L.QueryGetState (Call.NewQueryExecutor :: queryCalls (accounts.take i))
          "PaymentApp" accounts[i] = .ok b →
        bals[i]? = some (toInt b) := by
  obtain ⟨out, hrun, hlen, -, hhigh⟩ :=
    queryLoop_spec L accounts 0 [Call.NewQueryExecutor] (List.replicate accounts.length 0)
      (by simp) (by simpa using hreads)
  refine ⟨out, ?_, by simpa using hlen, ?_⟩
  · simp only [QueryBalances, ConstructAppInstance, hopen]
    simpa [ConstructAppInstance] using hrun
  · intro i hi b hb
    simpa using hhigh i hi b (by simpa using hb)

theorem writesOf_initWrites (entries : List (String × Int)) :
    writesOf (initWrites entries) = initWrites entries := by
  induction entries with
  | nil => rfl
  | cons kv rest ih =>
    simp only [writesOf, initWrites, List.map_cons] at ih ⊢
    rw [List.filter_cons_of_pos (by rfl), ih]

theorem Init_trace (L : ValidatedLedger) (entries : List (String × Int)) {u : Unit}
    (hopen : L.NewTxSimulator [] = .ok u) :
    (Init (ConstructAppInstance L) entries).trace
      = Call.NewTxSimulator ::
          (initWrites entries ++ [Call.GetTxSimulationResults, Call.Done]) := by
  simp only [Init, ConstructAppInstance, hopen, deferDone, initWrites]
  split <;> simp

theorem writesOf_Init_trace (entries : List (String × Int)) :
    writesOf (Call.NewTxSimulator ::
      (initWrites entries ++ [Call.GetTxSimulationResults, Call.Done])) = initWrites entries := by
  have h := writesOf_initWrites entries
  simp only [writesOf] at h ⊢
  rw [List.filter_cons_of_neg (by simp [Call.isSetState]), List.filter_append, h]
  simp [Call.isSetState]

theorem Init_success {L : ValidatedLedger} {entries : List (String × Int)} {tx : Transaction2}
    (h : (Init (ConstructAppInstance L) entries).value = some tx) :
    ∃ r, L.NewTxSimulator [] = .ok () ∧
      L.GetTxSimulationResults (Call.NewTxSimulator :: initWrites entries) = .ok r ∧
      tx = constructTransaction r ∧ (Init (ConstructAppInstance L) entries).err = none := by
  simp only [Init, ConstructAppInstance, deferDone, initWrites] at h ⊢
  split at h
  · simp at h
  · rename_i u hopen
    split at h
    · simp at h
    · rename_i r hr
      refine ⟨r, ?_⟩
      simp only [Option.some.injEq] at h
      simp [hopen, hr, h.symm]

theorem queryLoop_abort (L : ValidatedLedger) :
    ∀ (rest : List String) (i : Nat) (tr : List Call) (balances : List Int) (k : Nat)
      (hk : k < rest.length) (e : String),
      (∀ j (hj : j < k), ∃ b,
        L.QueryGetState (tr ++ queryCalls (rest.take j)) "PaymentApp"
          (rest.get ⟨j, Nat.lt_trans hj hk⟩) = .ok b) →
      L.QueryGetState (tr ++ queryCalls (rest.take k)) "PaymentApp" (rest.get ⟨k, hk⟩)
        = .error e →
      queryLoop (ConstructAppInstance L) rest i tr balances
        = ⟨none, some (.ledger e), tr ++ queryCalls (rest.take (k + 1))⟩ := by
  intro rest
  induction rest with
  | nil => intro i tr balances k hk; simp at hk
  | cons a rest ih =>
    intro i tr balances k hk e hbefore hfail
    cases k with
    | zero =>
      simp only [List.take_zero, queryCalls, List.map_nil, List.append_nil, List.get_eq_getElem,
        List.getElem_cons_zero] at hfail
      simp [queryLoop, ConstructAppInstance, hfail, queryCalls]
    | succ k =>
      obtain ⟨b0, hb0⟩ := hbefore 0 (by omega)
      simp only [List.take_zero, queryCalls, List.map_nil, List.append_nil, List.get_eq_getElem,
        List.getElem_cons_zero] at hb0
      have hk1 : k < rest.length := by simp at hk; omega
      have hrec := ih (i + 1) (tr ++ [Call.QueryGetState "PaymentApp" a])
        (balances.set i (toInt b0)) k hk1 e
        (by
          intro j hj
          obtain ⟨b, hb⟩ := hbefore (j + 1) (by omega)
          exact ⟨b, by simpa [queryCalls] using hb⟩)
        (by simpa [queryCalls] using hfail)
      simp only [queryLoop, ConstructAppInstance, hb0]
      simpa [ConstructAppInstance, queryCalls] using hrec

theorem TransferFunds_exclusive (L : ValidatedLedger) (f t : String) (a : Int) :
    ((TransferFunds (ConstructAppInstance L) f t a).value ≠ none ∧
        (TransferFunds (ConstructAppInstance L) f t a).err = none) ∨
      ((TransferFunds (ConstructAppInstance L) f t a).value = none ∧
        (TransferFunds (ConstructAppInstance L) f t a).err ≠ none) := by
  simp only [TransferFunds, ConstructAppInstance, deferDone]
  split
  · simp
  · split
    · simp
    · split
      · simp
      · split
        · simp
        · split <;> simp

theorem TransferFunds_trace_cases (L : ValidatedLedger) (f t : String) (a : Int) {u : Unit}
    (hopen : L.NewTxSimulator [] = .ok u) :
    ∃ body : List Call, (∀ c ∈ body, c ≠ Call.Done) ∧
      (TransferFunds (ConstructAppInstance L) f t a).trace
        = Call.NewTxSimulator :: (body ++ [Call.Done]) := by
  cases hf : L.GetState [Call.NewTxSimulator] "PaymentApp" f with
  | error e =>
    exact ⟨[Call.GetState "PaymentApp" f], by simp,
      by simp [TransferFunds, ConstructAppInstance, hopen, hf, deferDone]⟩
  | ok bf =>
    by_cases hlt : wrapInt (toInt bf - a) < 0
    · exact ⟨[Call.GetState "PaymentApp" f], by simp,
        by simp [TransferFunds, ConstructAppInstance, hopen, hf, hlt, deferDone]⟩
    · cases ht : L.GetState [Call.NewTxSimulator, Call.GetState "PaymentApp" f]
          "PaymentApp" t with
      | error e =>
        exact ⟨[Call.GetState "PaymentApp" f, Call.GetState "PaymentApp" t], by simp,
          by simp [TransferFunds, ConstructAppInstance, hopen, hf, hlt, ht, deferDone]⟩
      | ok bt =>
        refine ⟨[Call.GetState "PaymentApp" f, Call.GetState "PaymentApp" t,
          Call.SetState "PaymentApp" f (toBytes (wrapInt (toInt bf - a))),
          Call.SetState "PaymentApp" t (toBytes (wrapInt (toInt bt + a))),
          Call.GetTxSimulationResults], by simp, ?_⟩
        rw [TransferFunds_past_check hopen hf hlt ht]
        rfl

theorem Init_trace_cases (L : ValidatedLedger) (entries : List (String × Int)) {u : Unit}
    (hopen : L.NewTxSimulator [] = .ok u) :
    ∃ body : List Call, (∀ c ∈ body, c ≠ Call.Done) ∧
      (Init (ConstructAppInstance L) entries).trace
        = Call.NewTxSimulator :: (body ++ [Call.Done]) := by
  refine ⟨initWrites entries ++ [Call.GetTxSimulationResults], ?_, ?_⟩
  · intro c hc
    simp only [initWrites, List.mem_append, List.mem_map, List.mem_singleton] at hc
    rcases hc with ⟨kv, -, rfl⟩ | rfl <;> simp
  · rw [Init_trace L entries hopen]; simp

theorem count_done_of_cases {body : List Call} (h : ∀ c ∈ body, c ≠ Call.Done) :
    (Call.NewTxSimulator :: (body ++ [Call.Done])).count Call.Done = 1 ∧
      (Call.NewTxSimulator :: (body ++ [Call.Done])).getLast? = some Call.Done := by
  constructor
  · have h0 : body.count Call.Done = 0 := by
      rw [List.count_eq_zero]
      intro hmem
      exact h _ hmem rfl
    rw [List.count_cons_of_ne (by simp), List.count_append, h0]
    simp
  · rw [← List.cons_append, List.getLast?_concat]

theorem decodeVarintLoop_no_terminator :
    ∀ (k : Nat) (buf : Bytes) (shift x n : Nat), 64 ≤ shift + 7 * k →
      (∀ b ∈ buf.take k, b.val &&& 0x80 ≠ 0) → decodeVarintLoop buf shift x n = (0, 0) := by
  intro k
  induction k with
  | zero =>
    intro buf shift x n hs _
    cases buf with
    | nil => rfl
    | cons b rest => simp only [decodeVarintLoop, if_neg (by omega : ¬ shift < 64)]
  | succ k ih =>
    intro buf shift x n hs hall
    cases buf with
    | nil => rfl
    | cons b rest =>
      by_cases hlt : shift < 64
      · have hb : b.val &&& 0x80 ≠ 0 := hall b (by simp)
        simp only [decodeVarintLoop, if_pos hlt, if_neg hb]
        apply ih
        · omega
        · intro c hc
          exact hall c (by simp [hc])
      · simp only [decodeVarintLoop, if_neg hlt]

theorem decodeVarintLoop_lt :
    ∀ (buf : Bytes) (shift x n : Nat), (decodeVarintLoop buf shift x n).1 < 2 ^ 64 := by
  intro buf
  induction buf with
  | nil => intro shift x n; simp [decodeVarintLoop]
  | cons b rest ih =>
    intro shift x n
    simp only [decodeVarintLoop]
    split
    · split
      · exact Nat.mod_lt _ (by norm_num)
      · exact ih _ _ _
    · norm_num

theorem intOfUint64_isInt64 {v : Nat} (h : v < 2 ^ 64) : isInt64 (intOfUint64 v) := by
  unfold isInt64 intOfUint64
  split <;> omega

theorem encodeVarintLoop_length :
    ∀ (fuel x : Nat), 2 ^ (7 * fuel) ≤ x → (encodeVarintLoop fuel x).length = fuel + 1 := by
  intro fuel
  induction fuel with
  | zero => intro x _; rfl
  | succ fuel ih =>
    intro x hx
    have hpow : 2 ^ (7 * (fuel + 1)) = 2 ^ (7 * fuel) * 128 := by
      rw [Nat.mul_add, pow_add]; norm_num
    have hpos : 0 < 2 ^ (7 * fuel) := Nat.pow_pos (by norm_num)
    have hbig : x > 127 := by omega
    have hdiv : 2 ^ (7 * fuel) ≤ x >>> 7 := by
      rw [Nat.shiftRight_eq_div_pow]
      apply (Nat.le_div_iff_mul_le (by norm_num)).2
      omega
    simp only [encodeVarintLoop, if_pos hbig, List.length_cons, ih _ hdiv]

theorem applyWrites_transferCalls_self (st : LedgerState) (a : String) (x y : Int) :
    applyWrites st (transferCalls a a x y) "PaymentApp" a = toBytes y :=
  applyWrites_transferCalls_to st a a x y

/-! ## The claims -/

/-- C1 (amended): conservation for a transfer between two different accounts.  When
`TransferFunds` returns a proposal and the reads of the simulator return the contents of
the ledger state, then after the writes of the call are applied the sum of the two
decoded balances equals the sum before the call in 64-bit `int` arithmetic; when
neither `balance(from) - amount` nor `balance(to) + amount` leaves the `int` range,
the two sums are equal as integers. -/
theorem C1_conservation_distinct_accounts (L : ValidatedLedger) (st : LedgerState)
    (fromAccount toAccount : String) (amount : Int) (hreads : readsFrom L st)
    (hne : fromAccount ≠ toAccount)
    (hok : (TransferFunds (ConstructAppInstance L) fromAccount toAccount amount).value ≠ none) :
    wrapInt
        (balance (applyWrites st
            (TransferFunds (ConstructAppInstance L) fromAccount toAccount amount).trace)
            fromAccount
          + balance (applyWrites st
            (TransferFunds (ConstructAppInstance L) fromAccount toAccount amount).trace)
            toAccount)
      = wrapInt (balance st fromAccount + balance st toAccount) ∧
    (isInt64 (balance st fromAccount - amount) → isInt64 (balance st toAccount + amount) →
      balance (applyWrites st
          (TransferFunds (ConstructAppInstance L) fromAccount toAccount amount).trace)
          fromAccount
        + balance (applyWrites st
          (TransferFunds (ConstructAppInstance L) fromAccount toAccount amount).trace)
          toAccount
      = balance st fromAccount + balance st toAccount) := by
  obtain ⟨bf, bt, hf, ht, -, htr⟩ := TransferFunds_success_trace hok
  have ef : bf = st "PaymentApp" fromAccount := hreads _ _ _ _ hf
  have et : bt = st "PaymentApp" toAccount := hreads _ _ _ _ ht
  subst ef et
  rw [htr]
  simp only [balance, applyWrites_transferCalls_to, applyWrites_transferCalls_from st hne,
    toInt_toBytes, wrapInt_wrapInt]
  constructor
  · unfold wrapInt; omega
  · intro h1 h2
    rw [wrapInt_of_isInt64 h1, wrapInt_of_isInt64 h2]; ring

/-- C1 (witness): the transfer of 30 from A (100) to B (50). -/
theorem C1_conservation_distinct_accounts_witness :
    readsFrom (memLedger scenarioState) scenarioState ∧ "A" ≠ "B" ∧
    (TransferFunds (ConstructAppInstance (memLedger scenarioState)) "A" "B" 30).value ≠ none ∧
    balance (applyWrites scenarioState
        (TransferFunds (ConstructAppInstance (memLedger scenarioState)) "A" "B" 30).trace) "A"
      + balance (applyWrites scenarioState
        (TransferFunds (ConstructAppInstance (memLedger scenarioState)) "A" "B" 30).trace) "B"
      = balance scenarioState "A" + balance scenarioState "B" :=
  ⟨readsFrom_memLedger _, by decide, by decide,
    (C1_conservation_distinct_accounts (memLedger scenarioState) scenarioState "A" "B" 30
      (readsFrom_memLedger _) (by decide) (by decide)).2 (by decide) (by decide)⟩

/-- C1 (counterexample): conservation as stated fails.  A transfer of 30 from A (100)
to A itself succeeds and leaves A at 130, so the sum of the two balances goes from
200 to 260; and a transfer of 1 from A (1) to B (2^63 - 1) succeeds and wraps B
around to -2^63, so the sum as integers goes from 2^63 to -2^63. -/
theorem C1_conservation_counterexample :
    ((TransferFunds (ConstructAppInstance (memLedger (stateOf [("A", 100)]))) "A" "A" 30).value
        ≠ none ∧
      balance (applyWrites (stateOf [("A", 100)])
          (TransferFunds (ConstructAppInstance (memLedger (stateOf [("A", 100)])))
            "A" "A" 30).trace) "A"
        + balance (applyWrites (stateOf [("A", 100)])
          (TransferFunds (ConstructAppInstance (memLedger (stateOf [("A", 100)])))
            "A" "A" 30).trace) "A"
        ≠ balance (stateOf [("A", 100)]) "A" + balance (stateOf [("A", 100)]) "A") ∧
    ((TransferFunds (ConstructAppInstance
        (memLedger (stateOf [("A", 1), ("B", 2 ^ 63 - 1)]))) "A" "B" 1).value ≠ none ∧
      balance (applyWrites (stateOf [("A", 1), ("B", 2 ^ 63 - 1)])
          (TransferFunds (ConstructAppInstance
            (memLedger (stateOf [("A", 1), ("B", 2 ^ 63 - 1)]))) "A" "B" 1).trace) "A"
        + balance (applyWrites (stateOf [("A", 1), ("B", 2 ^ 63 - 1)])
          (TransferFunds (ConstructAppInstance
            (memLedger (stateOf [("A", 1), ("B", 2 ^ 63 - 1)]))) "A" "B" 1).trace) "B"
        ≠ balance (stateOf [("A", 1), ("B", 2 ^ 63 - 1)]) "A"
          + balance (stateOf [("A", 1), ("B", 2 ^ 63 - 1)]) "B") := by
  refine ⟨⟨by decide, by decide⟩, by decide, by decide⟩

/-- C2 (amended): non-negativity for a transfer between two different accounts.  When
`TransferFunds` returns a proposal (so it did not fail with the insufficient-funds
error), then after the writes of the call are applied the decoded balance of
`fromAccount` is at least 0. -/
theorem C2_nonnegative_from_distinct_accounts (L : ValidatedLedger) (st : LedgerState)
    (fromAccount toAccount : String) (amount : Int) (hne : fromAccount ≠ toAccount)
    (hok : (TransferFunds (ConstructAppInstance L) fromAccount toAccount amount).value ≠ none) :
    0 ≤ balance (applyWrites st
      (TransferFunds (ConstructAppInstance L) fromAccount toAccount amount).trace)
      fromAccount := by
  obtain ⟨bf, bt, -, -, hge, htr⟩ := TransferFunds_success_trace hok
  rw [htr]
  simp only [balance, applyWrites_transferCalls_from st hne, toInt_toBytes, wrapInt_wrapInt]
  exact hge

/-- C2 (witness): after the transfer of 30 from A (100) to B (50), A holds 70. -/
theorem C2_nonnegative_from_distinct_accounts_witness :
    "A" ≠ "B" ∧
    (TransferFunds (ConstructAppInstance (memLedger scenarioState)) "A" "B" 30).value ≠ none ∧
    0 ≤ balance (applyWrites scenarioState
      (TransferFunds (ConstructAppInstance (memLedger scenarioState)) "A" "B" 30).trace) "A" :=
  ⟨by decide, by decide,
    C2_nonnegative_from_distinct_accounts (memLedger scenarioState) scenarioState "A" "B" 30
      (by decide) (by decide)⟩

/-- C2 (counterexample): non-negativity as stated fails for a transfer from an account
to itself.  With A at 2^63 - 1, `TransferFunds(A, A, 1)` returns a proposal and no
error, and applying its writes leaves A at -2^63; with A never written,
`TransferFunds(A, A, -10)` returns a proposal and no error and leaves A at -10. -/
theorem C2_nonnegative_from_counterexample :
    ((TransferFunds (ConstructAppInstance (memLedger (stateOf [("A", 2 ^ 63 - 1)])))
        "A" "A" 1).value ≠ none ∧
      (TransferFunds (ConstructAppInstance (memLedger (stateOf [("A", 2 ^ 63 - 1)])))
        "A" "A" 1).err = none ∧
      balance (applyWrites (stateOf [("A", 2 ^ 63 - 1)])
        (TransferFunds (ConstructAppInstance (memLedger (stateOf [("A", 2 ^ 63 - 1)])))
          "A" "A" 1).trace) "A" = -2 ^ 63) ∧
    ((TransferFunds (ConstructAppInstance (memLedger emptyState)) "A" "A" (-10)).value ≠ none ∧
      (TransferFunds (ConstructAppInstance (memLedger emptyState)) "A" "A" (-10)).err = none ∧
      balance (applyWrites emptyState
        (TransferFunds (ConstructAppInstance (memLedger emptyState)) "A" "A" (-10)).trace) "A"
        = -10) := by
  refine ⟨⟨by decide, by decide, by decide⟩, by decide, by decide, by decide⟩

/-- C3: a transfer rejected with the insufficient-funds error issued no `SetState`.
Its calls are `NewTxSimulator`, the read of `fromAccount` and `Done`; it returns no
proposal; and applying the writes of the call to any ledger state leaves every key
of the state unchanged. -/
theorem C3_no_writes_on_rejection (L : ValidatedLedger) (fromAccount toAccount : String)
    (amount : Int) (account : String) (bal request : Int)
    (hrej : (TransferFunds (ConstructAppInstance L) fromAccount toAccount amount).err
      = some (.notEnoughBalance account bal request)) :
    (TransferFunds (ConstructAppInstance L) fromAccount toAccount amount).trace
        = [Call.NewTxSimulator, Call.GetState "PaymentApp" fromAccount, Call.Done] ∧
      writesOf (TransferFunds (ConstructAppInstance L) fromAccount toAccount amount).trace = [] ∧
      (∀ c ∈ (TransferFunds (ConstructAppInstance L) fromAccount toAccount amount).trace,
        c.isSetState = false) ∧
      (TransferFunds (ConstructAppInstance L) fromAccount toAccount amount).value = none ∧
      ∀ st : LedgerState,
        applyWrites st (TransferFunds (ConstructAppInstance L) fromAccount toAccount amount).trace
          = st := by
  obtain ⟨bf, hopen, hf, hlt⟩ := TransferFunds_rejected hrej
  rw [TransferFunds_below hopen hf hlt]
  refine ⟨rfl, rfl, ?_, rfl, fun st => rfl⟩
  intro c hc
  simp only [List.mem_cons, List.mem_singleton, List.not_mem_nil, or_false] at hc
  rcases hc with rfl | rfl | rfl <;> rfl

/-- C3 (witness): scenario 3 of the spec.  With A at 100 and B at 50 the transfer of
1000 from A to B is rejected with the insufficient-funds error, it issued no write,
and the balances queried afterwards are still 100 and 50. -/
theorem C3_no_writes_on_rejection_witness :
    (TransferFunds (ConstructAppInstance (memLedger scenarioState)) "A" "B" 1000).err
        = some (.notEnoughBalance "A" 100 1000) ∧
      writesOf (TransferFunds (ConstructAppInstance (memLedger scenarioState))
        "A" "B" 1000).trace = [] ∧
      (QueryBalances (ConstructAppInstance (memLedger (applyWrites scenarioState
        (TransferFunds (ConstructAppInstance (memLedger scenarioState)) "A" "B" 1000).trace)))
        ["A", "B"]).value = some [100, 50] :=
  ⟨by decide,
    (C3_no_writes_on_rejection (memLedger scenarioState) "A" "B" 1000 "A" 100 1000
      (by decide)).2.1,
    by decide⟩

/-- C4 (amended): when the simulator opens and the read of `fromAccount` returns bytes
decoding to `balanceFrom`, `TransferFunds` fails with the insufficient-funds error
exactly when `balanceFrom - amount`, computed in 64-bit `int` arithmetic, is
negative; in that case the error carries `fromAccount`, `balanceFrom` and `amount`
and no proposal is returned; and whenever `balanceFrom - amount` lies in the `int`
range, the error is raised exactly when `balanceFrom < amount`. -/
theorem C4_insufficient_funds_iff_wrapped_check (L : ValidatedLedger)
    (fromAccount toAccount : String) (amount : Int) (balFromBytes : Bytes)
    (hopen : L.NewTxSimulator [] = .ok ())
    (hread : L.GetState [Call.NewTxSimulator] "PaymentApp" fromAccount = .ok balFromBytes) :
    ((∃ account bal request,
          (TransferFunds (ConstructAppInstance L) fromAccount toAccount amount).err
            = some (.notEnoughBalance account bal request))
        ↔ wrapInt (toInt balFromBytes - amount) < 0) ∧
      (wrapInt (toInt balFromBytes - amount) < 0 →
        (TransferFunds (ConstructAppInstance L) fromAccount toAccount amount).err
            = some (.notEnoughBalance fromAccount (toInt balFromBytes) amount) ∧
          (TransferFunds (ConstructAppInstance L) fromAccount toAccount amount).value = none) ∧
      (isInt64 (toInt balFromBytes - amount) →
        ((∃ account bal request,
            (TransferFunds (ConstructAppInstance L) fromAccount toAccount amount).err
              = some (.notEnoughBalance account bal request))
          ↔ toInt balFromBytes < amount)) := by
  have hiff : (∃ account bal request,
        (TransferFunds (ConstructAppInstance L) fromAccount toAccount amount).err
          = some (.notEnoughBalance account bal request))
      ↔ wrapInt (toInt balFromBytes - amount) < 0 := by
    constructor
    · rintro ⟨account, bal, request, h⟩
      by_contra hge
      exact TransferFunds_not_below hopen hread hge _ _ _ h
    · intro hlt
      exact ⟨fromAccount, toInt balFromBytes, amount, by rw [TransferFunds_below hopen hread hlt]⟩
  refine ⟨hiff, ?_, ?_⟩
  · intro hlt
    rw [TransferFunds_below hopen hread hlt]
    exact ⟨rfl, rfl⟩
  · intro hrange
    rw [hiff, wrapInt_of_isInt64 hrange]
    omega

/-- C4 (witness): scenario 3 of the spec: A holds 100, the transfer of 1000 is rejected
and the error carries A, 100 and 1000. -/
theorem C4_insufficient_funds_iff_wrapped_check_witness :
    (memLedger scenarioState).NewTxSimulator [] = .ok () ∧
      (memLedger scenarioState).GetState [Call.NewTxSimulator] "PaymentApp" "A"
        = .ok (toBytes 100) ∧
      (TransferFunds (ConstructAppInstance (memLedger scenarioState)) "A" "B" 1000).err
        = some (.notEnoughBalance "A" (toInt (toBytes 100)) 1000) ∧
      (Error.notEnoughBalance "A" (toInt (toBytes 100)) 1000).message
        = "Not enough balance in account [A]. Balance = [100], transfer request = [1000]" :=
  ⟨rfl, by decide,
    ((C4_insufficient_funds_iff_wrapped_check (memLedger scenarioState) "A" "B" 1000
      (toBytes 100) rfl (by decide)).2.1 (by decide)).1,
    by decide⟩

/-- C4 (counterexample): the check is not the comparison of integers.  With A never
written (balance 0) and amount -2^63, `balanceFrom - amount` is 2^63, not negative,
yet the transfer fails with the insufficient-funds error; with A at -2^63 and amount
1, `balanceFrom - amount` is negative, yet the transfer returns a proposal and no
error. -/
theorem C4_insufficient_funds_counterexample :
    ((memLedger emptyState).GetState [Call.NewTxSimulator] "PaymentApp" "A" = .ok [] ∧
      toInt [] = 0 ∧ ¬ ((0 : Int) - (-2 ^ 63) < 0) ∧
      (TransferFunds (ConstructAppInstance (memLedger emptyState)) "A" "B" (-2 ^ 63)).err
        = some (.notEnoughBalance "A" 0 (-2 ^ 63))) ∧
    ((memLedger (stateOf [("A", -2 ^ 63)])).GetState [Call.NewTxSimulator] "PaymentApp" "A"
        = .ok (toBytes (-2 ^ 63)) ∧
      toInt (toBytes (-2 ^ 63)) = -2 ^ 63 ∧ (-2 ^ 63 : Int) - 1 < 0 ∧
      (TransferFunds (ConstructAppInstance (memLedger (stateOf [("A", -2 ^ 63)])))
        "A" "B" 1).err = none ∧
      (TransferFunds (ConstructAppInstance (memLedger (stateOf [("A", -2 ^ 63)])))
        "A" "B" 1).value ≠ none) := by
  refine ⟨⟨by decide, by decide, by decide, by decide⟩,
    by decide, by decide, by decide, by decide, by decide⟩

/-- C5: a transfer that passes the sufficiency check after reading `balanceFrom` and
`balanceTo` makes exactly these calls, in this order: `NewTxSimulator`, the two
reads, the write `fromAccount <- toBytes(balanceFrom - amount)`, the write
`toAccount <- toBytes(balanceTo + amount)`, `GetTxSimulationResults`, `Done`; the
two writes are its only writes, both under the namespace `PaymentApp`.  The written
bytes are those of the 64-bit results, which are also the bytes of the integer
results. -/
theorem C5_write_set_of_transfer (L : ValidatedLedger) (fromAccount toAccount : String)
    (amount : Int) (balFromBytes balToBytes : Bytes)
    (hopen : L.NewTxSimulator [] = .ok ())
    (hfrom : L.GetState [Call.NewTxSimulator] "PaymentApp" fromAccount = .ok balFromBytes)
    (hcheck : ¬ wrapInt (toInt balFromBytes - amount) < 0)
    (hto : L.GetState [Call.NewTxSimulator, Call.GetState "PaymentApp" fromAccount]
      "PaymentApp" toAccount = .ok balToBytes) :
    (TransferFunds (ConstructAppInstance L) fromAccount toAccount amount).trace
        = [Call.NewTxSimulator, Call.GetState "PaymentApp" fromAccount,
            Call.GetState "PaymentApp" toAccount,
            Call.SetState "PaymentApp" fromAccount (toBytes (toInt balFromBytes - amount)),
            Call.SetState "PaymentApp" toAccount (toBytes (toInt balToBytes + amount)),
            Call.GetTxSimulationResults, Call.Done] ∧
      writesOf (TransferFunds (ConstructAppInstance L) fromAccount toAccount amount).trace
        = [Call.SetState "PaymentApp" fromAccount (toBytes (toInt balFromBytes - amount)),
            Call.SetState "PaymentApp" toAccount (toBytes (toInt balToBytes + amount))] ∧
      toBytes (wrapInt (toInt balFromBytes - amount)) = toBytes (toInt balFromBytes - amount) ∧
      toBytes (wrapInt (toInt balToBytes + amount)) = toBytes (toInt balToBytes + amount) := by
  rw [TransferFunds_past_check hopen hfrom hcheck hto, writesOf_transferCalls]
  simp only [transferCalls, toBytes_wrapInt, and_self]

/-- C5 (witness): scenario 2 of the spec: with A at 100 and B at 50,
`TransferFunds(A, B, 30)` writes A and then B, and the written bytes decode to 70
and 80. -/
theorem C5_write_set_of_transfer_witness :
    writesOf (TransferFunds (ConstructAppInstance (memLedger scenarioState)) "A" "B" 30).trace
        = [Call.SetState "PaymentApp" "A" (toBytes (toInt (toBytes 100) - 30)),
            Call.SetState "PaymentApp" "B" (toBytes (toInt (toBytes 50) + 30))] ∧
      toInt (toBytes (toInt (toBytes 100) - 30)) = 70 ∧
      toInt (toBytes (toInt (toBytes 50) + 30)) = 80 ∧
      (QueryBalances (ConstructAppInstance (memLedger (applyWrites scenarioState
        (TransferFunds (ConstructAppInstance (memLedger scenarioState)) "A" "B" 30).trace)))
        ["A", "B"]).value = some [70, 80] :=
  ⟨(C5_write_set_of_transfer (memLedger scenarioState) "A" "B" 30 (toBytes 100) (toBytes 50)
      rfl (by decide) (by decide) (by decide)).2.1,
    by decide, by decide, by decide⟩

/-- C6 (amended): after a successful transfer the call wrote exactly two balances.  The
one written for `fromAccount` decodes to a value that is at least 0.  The one written
for `toAccount` decodes to `balanceTo + amount` in 64-bit `int` arithmetic, which is
at least 0 whenever `balanceTo >= 0`, `amount >= 0` and `balanceTo + amount` does
not exceed `2^63 - 1`. -/
theorem C6_written_balances_after_success (L : ValidatedLedger)
    (fromAccount toAccount : String) (amount : Int)
    (hok : (TransferFunds (ConstructAppInstance L) fromAccount toAccount amount).value ≠ none) :
    ∃ balFromBytes balToBytes newFrom newTo,
      L.GetState [Call.NewTxSimulator] "PaymentApp" fromAccount = .ok balFromBytes ∧
      L.GetState [Call.NewTxSimulator, Call.GetState "PaymentApp" fromAccount]
        "PaymentApp" toAccount = .ok balToBytes ∧
      writesOf (TransferFunds (ConstructAppInstance L) fromAccount toAccount amount).trace
        = [Call.SetState "PaymentApp" fromAccount newFrom,
            Call.SetState "PaymentApp" toAccount newTo] ∧
      0 ≤ toInt newFrom ∧
      toInt newTo = wrapInt (toInt balToBytes + amount) ∧
      (0 ≤ toInt balToBytes → 0 ≤ amount → toInt balToBytes + amount < 2 ^ 63 →
        0 ≤ toInt newTo) := by
  obtain ⟨bf, bt, hf, ht, hge, htr⟩ := TransferFunds_success_trace hok
  refine ⟨bf, bt, toBytes (wrapInt (toInt bf - amount)), toBytes (wrapInt (toInt bt + amount)),
    hf, ht, ?_, ?_, ?_, ?_⟩
  · rw [htr, writesOf_transferCalls]
  · rw [toInt_toBytes, wrapInt_wrapInt]; exact hge
  · rw [toInt_toBytes, wrapInt_wrapInt]
  · intro h0 ha hlt
    rw [toInt_toBytes, wrapInt_wrapInt, wrapInt_of_isInt64 ⟨by omega, hlt⟩]
    omega

/-- C6 (witness): the transfer of 30 from A (100) to B (50) wrote two balances. -/
theorem C6_written_balances_after_success_witness :
    (TransferFunds (ConstructAppInstance (memLedger scenarioState)) "A" "B" 30).value ≠ none ∧
    ∃ balFromBytes balToBytes newFrom newTo,
      (memLedger scenarioState).GetState [Call.NewTxSimulator] "PaymentApp" "A"
        = .ok balFromBytes ∧
      (memLedger scenarioState).GetState [Call.NewTxSimulator, Call.GetState "PaymentApp" "A"]
        "PaymentApp" "B" = .ok balToBytes ∧
      writesOf (TransferFunds (ConstructAppInstance (memLedger scenarioState)) "A" "B" 30).trace
        = [Call.SetState "PaymentApp" "A" newFrom, Call.SetState "PaymentApp" "B" newTo] ∧
      0 ≤ toInt newFrom ∧
      toInt newTo = wrapInt (toInt balToBytes + 30) ∧
      (0 ≤ toInt balToBytes → (0 : Int) ≤ 30 → toInt balToBytes + 30 < 2 ^ 63 →
        0 ≤ toInt newTo) :=
  ⟨by decide,
    C6_written_balances_after_success (memLedger scenarioState) "A" "B" 30 (by decide)⟩

/-- C6 (counterexample): a balance written by a successful transfer can decode to a
negative value.  With no key written, `TransferFunds(A, B, -10)` succeeds and writes
B <- toBytes(-10), which decodes to -10; with A at 1 and B at 2^63 - 1,
`TransferFunds(A, B, 1)` succeeds and writes for B bytes that decode to -2^63. -/
theorem C6_written_balances_counterexample :
    ((TransferFunds (ConstructAppInstance (memLedger emptyState)) "A" "B" (-10)).value ≠ none ∧
      writesOf (TransferFunds (ConstructAppInstance (memLedger emptyState)) "A" "B" (-10)).trace
        = [Call.SetState "PaymentApp" "A" (toBytes 10),
            Call.SetState "PaymentApp" "B" (toBytes (-10))] ∧
      toInt (toBytes (-10)) = -10) ∧
    ((TransferFunds (ConstructAppInstance (memLedger (stateOf [("A", 1), ("B", 2 ^ 63 - 1)])))
        "A" "B" 1).value ≠ none ∧
      writesOf (TransferFunds (ConstructAppInstance
          (memLedger (stateOf [("A", 1), ("B", 2 ^ 63 - 1)]))) "A" "B" 1).trace
        = [Call.SetState "PaymentApp" "A" (toBytes 0),
            Call.SetState "PaymentApp" "B" (toBytes (-2 ^ 63))] ∧
      toInt (toBytes (-2 ^ 63)) = -2 ^ 63) := by
  refine ⟨⟨by decide, by decide, by decide⟩, by decide, by decide, by decide⟩

/-- C7: round trip of the balance encoding.  For every non-negative integer `n` in the
range of the 64-bit `int`, `toInt (toBytes n) = n`. -/
theorem C7_round_trip_nonnegative (n : Int) (h0 : 0 ≤ n) (hmax : n < 2 ^ 63) :
    toInt (toBytes n) = n := by
  rw [toInt_toBytes]
  exact wrapInt_of_isInt64 ⟨by omega, hmax⟩

/-- C7 (witness): 300 is encoded as the two bytes 0xAC 0x02 and decoded back, and so is
the largest `int`. -/
theorem C7_round_trip_nonnegative_witness :
    toBytes 300 = [0xAC, 0x02] ∧ toInt (toBytes 300) = 300 ∧
      toInt (toBytes (2 ^ 63 - 1)) = 2 ^ 63 - 1 :=
  ⟨by decide, C7_round_trip_nonnegative 300 (by decide) (by decide),
    C7_round_trip_nonnegative (2 ^ 63 - 1) (by decide) (by decide)⟩

/-- C8: query order preservation.  For every sequence of account ids, when the query
executor opens and each read the query issues succeeds, `QueryBalances` returns no
error and a sequence of the same length as the input whose `i`-th element is `toInt`
of the bytes read for the `i`-th account under the namespace `PaymentApp`, the read
issued after the reads of the accounts before it. -/
theorem C8_query_order_preserved (L : ValidatedLedger) (accounts : List String)
    (hopen : L.NewQueryExecutor [] = .ok ())
    (hreads : ∀ i (hi : i < accounts.length), ∃ b,
      L.QueryGetState (Call.NewQueryExecutor :: queryCalls (accounts.take i))
        "PaymentApp" accounts[i] = .ok b) :
    ∃ bals, (QueryBalances (ConstructAppInstance L) accounts).value = some bals ∧
      (QueryBalances (ConstructAppInstance L) accounts).err = none ∧
      (QueryBalances (ConstructAppInstance L) accounts).trace
        = Call.NewQueryExecutor :: accounts.map (Call.QueryGetState "PaymentApp") ∧
      bals.length = accounts.length ∧
      ∀ i (hi : i < accounts.length), ∃ b,
        L.QueryGetState
            (Call.NewQueryExecutor ::
              (accounts.take i).map (Call.QueryGetState "PaymentApp"))
            "PaymentApp" accounts[i] = .ok b ∧
          bals[i]? = some (toInt b) := by
  obtain ⟨bals, hrun, hlen, hval⟩ := QueryBalances_spec L accounts hopen hreads
  refine ⟨bals, by rw [hrun], by rw [hrun], by rw [hrun]; rfl, hlen, ?_⟩
  intro i hi
  obtain ⟨b, hb⟩ := hreads i hi
  exact ⟨b, hb, hval i hi b hb⟩

/-- C8 (witness): with A at 100 and B at 50, the query of B, A, B, C returns 50, 100,
50, 0 in that order, and the query of no account returns the empty sequence. -/
theorem C8_query_order_preserved_witness :
    (∃ bals,
      (QueryBalances (ConstructAppInstance (memLedger scenarioState))
        ["B", "A", "B", "C"]).value = some bals ∧
      (QueryBalances (ConstructAppInstance (memLedger scenarioState))
        ["B", "A", "B", "C"]).err = none ∧
      (QueryBalances (ConstructAppInstance (memLedger scenarioState))
        ["B", "A", "B", "C"]).trace
        = Call.NewQueryExecutor ::
            ["B", "A", "B", "C"].map (Call.QueryGetState "PaymentApp") ∧
      bals.length = ["B", "A", "B", "C"].length ∧
      ∀ i (hi : i < ["B", "A", "B", "C"].length), ∃ b,
        (memLedger scenarioState).QueryGetState
            (Call.NewQueryExecutor ::
              (["B", "A", "B", "C"].take i).map (Call.QueryGetState "PaymentApp"))
            "PaymentApp" (["B", "A", "B", "C"].get ⟨i, hi⟩) = .ok b ∧
          bals[i]? = some (toInt b)) ∧
    (QueryBalances (ConstructAppInstance (memLedger scenarioState))
      ["B", "A", "B", "C"]).value = some [50, 100, 50, 0] ∧
    (QueryBalances (ConstructAppInstance (memLedger scenarioState)) []).value = some [] :=
  ⟨C8_query_order_preserved (memLedger scenarioState) ["B", "A", "B", "C"] rfl
      (fun _ _ => ⟨_, rfl⟩),
    by decide, by decide⟩

/-- C9: missing-key read.  `toInt` of absent bytes is 0; so when the query executor
opens, every read the query issues succeeds and the read for the account at
position `i` returns no bytes, `QueryBalances` returns no error and reports 0 at
position `i`. -/
theorem C9_missing_key_reads_zero (L : ValidatedLedger) (accounts : List String) (i : Nat)
    (hi : i < accounts.length) (hopen : L.NewQueryExecutor [] = .ok ())
    (hreads : ∀ j (hj : j < accounts.length), ∃ b,
      L.QueryGetState (Call.NewQueryExecutor :: queryCalls (accounts.take j))
        "PaymentApp" accounts[j] = .ok b)
    (habsent : L.QueryGetState
      (Call.NewQueryExecutor :: (accounts.take i).map (Call.QueryGetState "PaymentApp"))
      "PaymentApp" accounts[i] = .ok []) :
    toInt [] = 0 ∧
      ∃ bals, (QueryBalances (ConstructAppInstance L) accounts).value = some bals ∧
        (QueryBalances (ConstructAppInstance L) accounts).err = none ∧
        bals.length = accounts.length ∧
        bals[i]? = some 0 := by
  obtain ⟨bals, hrun, hlen, hval⟩ := QueryBalances_spec L accounts hopen hreads
  have h0 : toInt [] = 0 := by decide
  refine ⟨h0, bals, by rw [hrun], by rw [hrun], hlen, ?_⟩
  rw [hval i hi [] habsent, h0]

/-- C9 (witness): scenario 4 of the spec: on a ledger where C was never written,
`QueryBalances([C])` returns `[0]` and no error. -/
theorem C9_missing_key_reads_zero_witness :
    (toInt [] = 0 ∧
      ∃ bals, (QueryBalances (ConstructAppInstance (memLedger emptyState)) ["C"]).value
          = some bals ∧
        (QueryBalances (ConstructAppInstance (memLedger emptyState)) ["C"]).err = none ∧
        bals.length = ["C"].length ∧
        bals[0]? = some 0) ∧
    (QueryBalances (ConstructAppInstance (memLedger emptyState)) ["C"]).value = some [0] ∧
    (QueryBalances (ConstructAppInstance (memLedger emptyState)) ["C"]).err = none ∧
    (QueryBalances (ConstructAppInstance (memLedger scenarioState)) ["C"]).value = some [0] :=
  ⟨C9_missing_key_reads_zero (memLedger emptyState) ["C"] 0 (by decide) rfl
      (fun _ _ => ⟨_, rfl⟩) rfl,
    by decide, by decide, by decide⟩

/-- C10: `Init` writes exactly the mapping.  When the simulator opens, the calls of
`Init` are `NewTxSimulator`, one `SetState` per entry of the mapping (in the order
in which the map is ranged over, whatever that order is) under the namespace
`PaymentApp` with the account id as key and `toBytes` of the balance as value,
`GetTxSimulationResults` and `Done`; these writes are its only writes, and two
orders of ranging over the same entries give the same writes up to order.  When the
extraction of the simulation results succeeds, `Init` returns the proposal wrapping
exactly those results and no error. -/
theorem C10_init_writes_mapping (L : ValidatedLedger) (entries : List (String × Int))
    (hopen : L.NewTxSimulator [] = .ok ()) :
    (Init (ConstructAppInstance L) entries).trace
        = Call.NewTxSimulator ::
            (entries.map (fun kv => Call.SetState "PaymentApp" kv.1 (toBytes kv.2))
              ++ [Call.GetTxSimulationResults, Call.Done]) ∧
      writesOf (Init (ConstructAppInstance L) entries).trace
        = entries.map (fun kv => Call.SetState "PaymentApp" kv.1 (toBytes kv.2)) ∧
      (∀ entries1 : List (String × Int), entries1.Perm entries →
        (writesOf (Init (ConstructAppInstance L) entries1).trace).Perm
          (writesOf (Init (ConstructAppInstance L) entries).trace)) ∧
      (∀ r, L.GetTxSimulationResults
            (Call.NewTxSimulator ::
              entries.map (fun kv => Call.SetState "PaymentApp" kv.1 (toBytes kv.2))) = .ok r →
        (Init (ConstructAppInstance L) entries).value = some (constructTransaction r) ∧
          (Init (ConstructAppInstance L) entries).err = none) := by
  refine ⟨Init_trace L entries hopen, ?_, ?_, ?_⟩
  · rw [Init_trace L entries hopen, writesOf_Init_trace]; rfl
  · intro entries1 hperm
    rw [Init_trace L entries hopen, Init_trace L entries1 hopen, writesOf_Init_trace,
      writesOf_Init_trace]
    exact hperm.map _
  · intro r hr
    simp [Init, ConstructAppInstance, hopen, hr, deferDone]

/-- C10 (witness): scenarios 5 and 1 of the spec.  For the empty mapping `Init` issues
no write and returns the proposal wrapping the empty results; for {A: 100, B: 50} it
writes A and B, the written values decode to 100 and 50, and the balances queried
after the writes are applied are 100 and 50. -/
theorem C10_init_writes_mapping_witness :
    (writesOf (Init (ConstructAppInstance (memLedger emptyState)) []).trace = [] ∧
      (Init (ConstructAppInstance (memLedger emptyState)) []).value
        = some (constructTransaction []) ∧
      (Init (ConstructAppInstance (memLedger emptyState)) []).err = none) ∧
    (writesOf (Init (ConstructAppInstance (memLedger emptyState)) [("A", 100), ("B", 50)]).trace
        = [Call.SetState "PaymentApp" "A" (toBytes 100),
            Call.SetState "PaymentApp" "B" (toBytes 50)] ∧
      toInt (toBytes 100) = 100 ∧ toInt (toBytes 50) = 50 ∧
      (QueryBalances (ConstructAppInstance (memLedger (applyWrites emptyState
        (Init (ConstructAppInstance (memLedger emptyState)) [("A", 100), ("B", 50)]).trace)))
        ["A", "B"]).value = some [100, 50]) :=
  ⟨⟨(C10_init_writes_mapping (memLedger emptyState) [] rfl).2.1,
      ((C10_init_writes_mapping (memLedger emptyState) [] rfl).2.2.2 [] rfl).1,
      ((C10_init_writes_mapping (memLedger emptyState) [] rfl).2.2.2 [] rfl).2⟩,
    (C10_init_writes_mapping (memLedger emptyState) [("A", 100), ("B", 50)] rfl).2.1,
    by decide, by decide, by decide⟩

/-- C11: proposal shape.  `constructTransaction r` has exactly one action, whose
`ActionBytes` is `r`, whose endorsement list is empty and whose proposal bytes are
empty; and a proposal returned by `Init` or by `TransferFunds` is
`constructTransaction` of exactly the bytes that `GetTxSimulationResults` returned
in that call, after the writes of the call. -/
theorem C11_proposal_shape (L : ValidatedLedger) (entries : List (String × Int))
    (fromAccount toAccount : String) (amount : Int) :
    (∀ r : Bytes,
      (constructTransaction r).EndorsedActions
          = [{ ActionBytes := r, Endorsements := [], ProposalBytes := [] }] ∧
        (constructTransaction r).EndorsedActions.length = 1) ∧
    (∀ tx, (Init (ConstructAppInstance L) entries).value = some tx →
      ∃ r, L.GetTxSimulationResults
            (Call.NewTxSimulator ::
              entries.map (fun kv => Call.SetState "PaymentApp" kv.1 (toBytes kv.2))) = .ok r ∧
        tx = constructTransaction r) ∧
    (∀ tx, (TransferFunds (ConstructAppInstance L) fromAccount toAccount amount).value = some tx →
      ∃ balFromBytes balToBytes r,
        L.GetState [Call.NewTxSimulator] "PaymentApp" fromAccount = .ok balFromBytes ∧
        L.GetState [Call.NewTxSimulator, Call.GetState "PaymentApp" fromAccount]
          "PaymentApp" toAccount = .ok balToBytes ∧
        L.GetTxSimulationResults
          [Call.NewTxSimulator, Call.GetState "PaymentApp" fromAccount,
            Call.GetState "PaymentApp" toAccount,
            Call.SetState "PaymentApp" fromAccount
              (toBytes (wrapInt (toInt balFromBytes - amount))),
            Call.SetState "PaymentApp" toAccount
              (toBytes (wrapInt (toInt balToBytes + amount)))] = .ok r ∧
        tx = constructTransaction r) := by
  refine ⟨fun r => ⟨rfl, rfl⟩, ?_, ?_⟩
  · intro tx h
    obtain ⟨r, -, hr, htx, -⟩ := Init_success h
    exact ⟨r, hr, htx⟩
  · intro tx h
    obtain ⟨bf, bt, r, -, hf, -, ht, hr, hval, -⟩ :=
      TransferFunds_success (by rw [h]; exact Option.some_ne_none tx)
    refine ⟨bf, bt, r, hf, ht, hr, ?_⟩
    rw [h] at hval
    exact Option.some.inj hval

/-- C11 (witness): on the ledger with A at 100 and B at 50, `Init` of {A: 7} and the
transfer of 30 from A to B return one-action proposals wrapping the extracted
bytes. -/
theorem C11_proposal_shape_witness :
    (Init (ConstructAppInstance (memLedger scenarioState)) [("A", 7)]).value
        = some (constructTransaction (toBytes 7)) ∧
      (∃ r, (memLedger scenarioState).GetTxSimulationResults
            (Call.NewTxSimulator ::
              [("A", (7 : Int))].map
                (fun kv => Call.SetState "PaymentApp" kv.1 (toBytes kv.2))) = .ok r ∧
        constructTransaction (toBytes 7) = constructTransaction r) ∧
      (TransferFunds (ConstructAppInstance (memLedger scenarioState)) "A" "B" 30).value
        = some (constructTransaction (toBytes 70 ++ toBytes 80)) ∧
      (constructTransaction (toBytes 70 ++ toBytes 80)).EndorsedActions
        = [{ ActionBytes := toBytes 70 ++ toBytes 80, Endorsements := [],
              ProposalBytes := [] }] :=
  ⟨by decide,
    (C11_proposal_shape (memLedger scenarioState) [("A", 7)] "A" "B" 30).2.1
      (constructTransaction (toBytes 7)) (by decide),
    by decide,
    ((C11_proposal_shape (memLedger scenarioState) [("A", 7)] "A" "B" 30).1
      (toBytes 70 ++ toBytes 80)).1⟩

/-- C12: a query aborts on the first read error.  When the query executor opens, the
reads for the accounts before index `i` succeed and the read for the account at
index `i` fails, `QueryBalances` returns the error of that read and no balance
sequence, and its reads are exactly those of the accounts at indices `0` to `i`:
no account after index `i` is read. -/
theorem C12_query_aborts_on_first_read_error (L : ValidatedLedger) (accounts : List String)
    (i : Nat) (hi : i < accounts.length) (e : String)
    (hopen : L.NewQueryExecutor [] = .ok ())
    (hbefore : ∀ j (hj : j < i), ∃ b,
      L.QueryGetState
        (Call.NewQueryExecutor :: (accounts.take j).map (Call.QueryGetState "PaymentApp"))
        "PaymentApp" (accounts.get ⟨j, Nat.lt_trans hj hi⟩) = .ok b)
    (hfail : L.QueryGetState
      (Call.NewQueryExecutor :: (accounts.take i).map (Call.QueryGetState "PaymentApp"))
      "PaymentApp" (accounts.get ⟨i, hi⟩) = .error e) :
    (QueryBalances (ConstructAppInstance L) accounts).err = some (.ledger e) ∧
      (QueryBalances (ConstructAppInstance L) accounts).value = none ∧
      (QueryBalances (ConstructAppInstance L) accounts).trace
        = Call.NewQueryExecutor ::
            (accounts.take (i + 1)).map (Call.QueryGetState "PaymentApp") ∧
      (QueryBalances (ConstructAppInstance L) accounts).trace.length = i + 2 := by
  have hrun := queryLoop_abort L accounts 0 [Call.NewQueryExecutor]
    (List.replicate accounts.length 0) i hi e
    (by simpa [queryCalls] using hbefore) (by simpa [queryCalls] using hfail)
  have hq : QueryBalances (ConstructAppInstance L) accounts
      = ⟨none, some (.ledger e), [Call.NewQueryExecutor] ++ queryCalls (accounts.take (i + 1))⟩ := by
    simp only [QueryBalances, ConstructAppInstance, hopen]
    simpa [ConstructAppInstance] using hrun
  rw [hq]
  refine ⟨rfl, rfl, rfl, ?_⟩
  simp [queryCalls, List.length_take]
  omega

/-- C12 (witness): on a ledger where every read of B fails, the query of A, B, C, B
reads A and B, returns the error of the read of B and no balances, and never reads
C. -/
theorem C12_query_aborts_on_first_read_error_witness :
    (QueryBalances (ConstructAppInstance (faultyLedger scenarioState none failOnB none))
        ["A", "B", "C", "B"]).err = some (.ledger "read failed") ∧
      (QueryBalances (ConstructAppInstance (faultyLedger scenarioState none failOnB none))
        ["A", "B", "C", "B"]).value = none ∧
      (QueryBalances (ConstructAppInstance (faultyLedger scenarioState none failOnB none))
        ["A", "B", "C", "B"]).trace
        = Call.NewQueryExecutor ::
            (["A", "B", "C", "B"].take (1 + 1)).map (Call.QueryGetState "PaymentApp") ∧
      (QueryBalances (ConstructAppInstance (faultyLedger scenarioState none failOnB none))
        ["A", "B", "C", "B"]).trace.length = 1 + 2 :=
  C12_query_aborts_on_first_read_error (faultyLedger scenarioState none failOnB none)
    ["A", "B", "C", "B"] 1 (by decide) "read failed" rfl
    (fun j hj => by
      have hj0 : j = 0 := by omega
      subst hj0
      exact ⟨toBytes 100, rfl⟩)
    (by decide)

/-- C13: errors of the collaborator are propagated immediately and exclusively.  In
`TransferFunds`, when the first failing step is the opening of the simulator, the
read of `fromAccount`, the read of `toAccount` or the extraction of the results,
the call returns the error of that step and no proposal, and after the failing
step it makes no call other than the deferred `Done`; it returns a proposal and no
error exactly when the opening, both reads, the sufficiency check and the
extraction all succeed; and it never returns both a proposal and an error, nor
neither. -/
theorem C13_collaborator_errors_propagate (L : ValidatedLedger)
    (fromAccount toAccount : String) (amount : Int) :
    (∀ e, L.NewTxSimulator [] = .error e →
      TransferFunds (ConstructAppInstance L) fromAccount toAccount amount
        = ⟨none, some (.ledger e), [Call.NewTxSimulator]⟩) ∧
    (∀ e, L.NewTxSimulator [] = .ok () →
      L.GetState [Call.NewTxSimulator] "PaymentApp" fromAccount = .error e →
      TransferFunds (ConstructAppInstance L) fromAccount toAccount amount
        = ⟨none, some (.ledger e),
            [Call.NewTxSimulator, Call.GetState "PaymentApp" fromAccount, Call.Done]⟩) ∧
    (∀ balFromBytes e, L.NewTxSimulator [] = .ok () →
      L.GetState [Call.NewTxSimulator] "PaymentApp" fromAccount = .ok balFromBytes →
      ¬ wrapInt (toInt balFromBytes - amount) < 0 →
      L.GetState [Call.NewTxSimulator, Call.GetState "PaymentApp" fromAccount]
        "PaymentApp" toAccount = .error e →
      TransferFunds (ConstructAppInstance L) fromAccount toAccount amount
        = ⟨none, some (.ledger e),
            [Call.NewTxSimulator, Call.GetState "PaymentApp" fromAccount,
              Call.GetState "PaymentApp" toAccount, Call.Done]⟩) ∧
    (∀ balFromBytes balToBytes e, L.NewTxSimulator [] = .ok () →
      L.GetState [Call.NewTxSimulator] "PaymentApp" fromAccount = .ok balFromBytes →
      ¬ wrapInt (toInt balFromBytes - amount) < 0 →
      L.GetState [Call.NewTxSimulator, Call.GetState "PaymentApp" fromAccount]
        "PaymentApp" toAccount = .ok balToBytes →
      L.GetTxSimulationResults
        [Call.NewTxSimulator, Call.GetState "PaymentApp" fromAccount,
          Call.GetState "PaymentApp" toAccount,
          Call.SetState "PaymentApp" fromAccount
            (toBytes (wrapInt (toInt balFromBytes - amount))),
          Call.SetState "PaymentApp" toAccount
            (toBytes (wrapInt (toInt balToBytes + amount)))] = .error e →
      TransferFunds (ConstructAppInstance L) fromAccount toAccount amount
        = ⟨none, some (.ledger e),
            [Call.NewTxSimulator, Call.GetState "PaymentApp" fromAccount,
              Call.GetState "PaymentApp" toAccount,
              Call.SetState "PaymentApp" fromAccount
                (toBytes (wrapInt (toInt balFromBytes - amount))),
              Call.SetState "PaymentApp" toAccount
                (toBytes (wrapInt (toInt balToBytes + amount))),
              Call.GetTxSimulationResults, Call.Done]⟩) ∧
    (((TransferFunds (ConstructAppInstance L) fromAccount toAccount amount).value ≠ none ∧
        (TransferFunds (ConstructAppInstance L) fromAccount toAccount amount).err = none) ↔
      ∃ balFromBytes balToBytes r, L.NewTxSimulator [] = .ok () ∧
        L.GetState [Call.NewTxSimulator] "PaymentApp" fromAccount = .ok balFromBytes ∧
        ¬ wrapInt (toInt balFromBytes - amount) < 0 ∧
        L.GetState [Call.NewTxSimulator, Call.GetState "PaymentApp" fromAccount]
          "PaymentApp" toAccount = .ok balToBytes ∧
        L.GetTxSimulationResults
          [Call.NewTxSimulator, Call.GetState "PaymentApp" fromAccount,
            Call.GetState "PaymentApp" toAccount,
            Call.SetState "PaymentApp" fromAccount
              (toBytes (wrapInt (toInt balFromBytes - amount))),
            Call.SetState "PaymentApp" toAccount
              (toBytes (wrapInt (toInt balToBytes + amount)))] = .ok r) ∧
    (((TransferFunds (ConstructAppInstance L) fromAccount toAccount amount).value ≠ none ∧
        (TransferFunds (ConstructAppInstance L) fromAccount toAccount amount).err = none) ∨
      ((TransferFunds (ConstructAppInstance L) fromAccount toAccount amount).value = none ∧
        (TransferFunds (ConstructAppInstance L) fromAccount toAccount amount).err ≠ none)) := by
  refine ⟨?_, ?_, ?_, ?_, ⟨?_, ?_⟩, TransferFunds_exclusive L fromAccount toAccount amount⟩
  · intro e hopen
    simp [TransferFunds, ConstructAppInstance, hopen]
  · intro e hopen hf
    simp [TransferFunds, ConstructAppInstance, hopen, hf, deferDone]
  · intro bf e hopen hf hchk ht
    simp [TransferFunds, ConstructAppInstance, hopen, hf, hchk, ht, deferDone]
  · intro bf bt e hopen hf hchk ht hr
    simp [TransferFunds, ConstructAppInstance, hopen, hf, hchk, ht, hr, deferDone]
  · rintro ⟨hval, -⟩
    obtain ⟨bf, bt, r, hopen, hf, hchk, ht, hr, -, -⟩ := TransferFunds_success hval
    exact ⟨bf, bt, r, hopen, hf, hchk, ht, hr⟩
  · rintro ⟨bf, bt, r, hopen, hf, hchk, ht, hr⟩
    simp [TransferFunds, ConstructAppInstance, hopen, hf, hchk, ht, hr, deferDone]

/-- C13 (witness): on the ledger with A at 100 and B at 50, a failing open, a failing
read of `fromAccount` B, a failing read of `toAccount` B and a failing extraction
are each returned as the error of the transfer, with the calls made up to the
failing step and `Done`; without a fault the transfer returns a proposal. -/
theorem C13_collaborator_errors_propagate_witness :
    TransferFunds (ConstructAppInstance
        (faultyLedger scenarioState (some "closed") noReadFault none)) "A" "B" 30
      = ⟨none, some (.ledger "closed"), [Call.NewTxSimulator]⟩ ∧
    TransferFunds (ConstructAppInstance (faultyLedger scenarioState none failOnB none))
        "B" "A" 30
      = ⟨none, some (.ledger "read failed"),
          [Call.NewTxSimulator, Call.GetState "PaymentApp" "B", Call.Done]⟩ ∧
    TransferFunds (ConstructAppInstance (faultyLedger scenarioState none failOnB none))
        "A" "B" 30
      = ⟨none, some (.ledger "read failed"),
          [Call.NewTxSimulator, Call.GetState "PaymentApp" "A",
            Call.GetState "PaymentApp" "B", Call.Done]⟩ ∧
    TransferFunds (ConstructAppInstance
        (faultyLedger scenarioState none noReadFault (some "no results"))) "A" "B" 30
      = ⟨none, some (.ledger "no results"),
          [Call.NewTxSimulator, Call.GetState "PaymentApp" "A",
            Call.GetState "PaymentApp" "B",
            Call.SetState "PaymentApp" "A" (toBytes (wrapInt (toInt (toBytes 100) - 30))),
            Call.SetState "PaymentApp" "B" (toBytes (wrapInt (toInt (toBytes 50) + 30))),
            Call.GetTxSimulationResults, Call.Done]⟩ ∧
    ((TransferFunds (ConstructAppInstance (memLedger scenarioState)) "A" "B" 30).value ≠ none ∧
      (TransferFunds (ConstructAppInstance (memLedger scenarioState)) "A" "B" 30).err = none) :=
  ⟨(C13_collaborator_errors_propagate
      (faultyLedger scenarioState (some "closed") noReadFault none) "A" "B" 30).1
      "closed" rfl,
    (C13_collaborator_errors_propagate
      (faultyLedger scenarioState none failOnB none) "B" "A" 30).2.1
      "read failed" rfl (by decide),
    (C13_collaborator_errors_propagate
      (faultyLedger scenarioState none failOnB none) "A" "B" 30).2.2.1
      (toBytes 100) "read failed" rfl (by decide) (by decide) (by decide),
    (C13_collaborator_errors_propagate
      (faultyLedger scenarioState none noReadFault (some "no results")) "A" "B" 30).2.2.2.1
      (toBytes 100) (toBytes 50) "no results" rfl (by decide) (by decide) (by decide)
      (by decide),
    (C13_collaborator_errors_propagate (memLedger scenarioState) "A" "B" 30).2.2.2.2.1.mpr
      ⟨toBytes 100, toBytes 50, toBytes 70 ++ toBytes 80, rfl, by decide, by decide,
        by decide, by decide⟩⟩

/-- C14: the simulation context is released exactly once.  In `Init` and in
`TransferFunds`, when `NewTxSimulator` succeeds the calls of the operation contain
`Done` exactly once and `Done` is the last call, whatever the exit path; when
`NewTxSimulator` fails, `Done` is not called and `NewTxSimulator` is the only
call. -/
theorem C14_done_exactly_once (L : ValidatedLedger) (entries : List (String × Int))
    (fromAccount toAccount : String) (amount : Int) :
    (L.NewTxSimulator [] = .ok () →
      (Init (ConstructAppInstance L) entries).trace.count Call.Done = 1 ∧
        (Init (ConstructAppInstance L) entries).trace.getLast? = some Call.Done ∧
        (TransferFunds (ConstructAppInstance L) fromAccount toAccount amount).trace.count
          Call.Done = 1 ∧
        (TransferFunds (ConstructAppInstance L) fromAccount toAccount amount).trace.getLast?
          = some Call.Done) ∧
    (∀ e, L.NewTxSimulator [] = .error e →
      (Init (ConstructAppInstance L) entries).trace = [Call.NewTxSimulator] ∧
        (Init (ConstructAppInstance L) entries).trace.count Call.Done = 0 ∧
        (TransferFunds (ConstructAppInstance L) fromAccount toAccount amount).trace
          = [Call.NewTxSimulator] ∧
        (TransferFunds (ConstructAppInstance L) fromAccount toAccount amount).trace.count
          Call.Done = 0) := by
  constructor
  · intro hopen
    obtain ⟨b1, hb1, h1⟩ := Init_trace_cases L entries hopen
    obtain ⟨b2, hb2, h2⟩ := TransferFunds_trace_cases L fromAccount toAccount amount hopen
    rw [h1, h2]
    exact ⟨(count_done_of_cases hb1).1, (count_done_of_cases hb1).2,
      (count_done_of_cases hb2).1, (count_done_of_cases hb2).2⟩
  · intro e hopen
    have hi : (Init (ConstructAppInstance L) entries).trace = [Call.NewTxSimulator] := by
      simp [Init, ConstructAppInstance, hopen]
    have ht : (TransferFunds (ConstructAppInstance L) fromAccount toAccount amount).trace
        = [Call.NewTxSimulator] := by
      simp [TransferFunds, ConstructAppInstance, hopen]
    rw [hi, ht]
    exact ⟨rfl, by decide, rfl, by decide⟩


/-- C14 (witness): the exit paths of a transfer on the ledger with A at 100 and B at
50: success, a failing read, insufficient funds and a failing extraction each end
with the only `Done`; after a failing open nothing but `NewTxSimulator` is
called. -/
theorem C14_done_exactly_once_witness :
    ((Init (ConstructAppInstance (memLedger scenarioState)) [("A", 1)]).trace.count Call.Done
        = 1 ∧
      (Init (ConstructAppInstance (memLedger scenarioState)) [("A", 1)]).trace.getLast?
        = some Call.Done ∧
      (TransferFunds (ConstructAppInstance (memLedger scenarioState)) "A" "B" 30).trace.count
        Call.Done = 1 ∧
      (TransferFunds (ConstructAppInstance (memLedger scenarioState)) "A" "B" 30).trace.getLast?
        = some Call.Done) ∧
    ((TransferFunds (ConstructAppInstance (memLedger scenarioState)) "A" "B" 1000).trace
        = [Call.NewTxSimulator, Call.GetState "PaymentApp" "A", Call.Done] ∧
      (TransferFunds (ConstructAppInstance (faultyLedger scenarioState none failOnB none))
        "A" "B" 30).trace
        = [Call.NewTxSimulator, Call.GetState "PaymentApp" "A",
            Call.GetState "PaymentApp" "B", Call.Done] ∧
      (Init (ConstructAppInstance
        (faultyLedger scenarioState none noReadFault (some "no results"))) [("A", 1)]).trace
        = [Call.NewTxSimulator, Call.SetState "PaymentApp" "A" (toBytes 1),
            Call.GetTxSimulationResults, Call.Done]) ∧
    ((Init (ConstructAppInstance
        (faultyLedger scenarioState (some "closed") noReadFault none)) [("A", 1)]).trace
        = [Call.NewTxSimulator] ∧
      (Init (ConstructAppInstance
        (faultyLedger scenarioState (some "closed") noReadFault none)) [("A", 1)]).trace.count
        Call.Done = 0 ∧
      (TransferFunds (ConstructAppInstance
        (faultyLedger scenarioState (some "closed") noReadFault none)) "A" "B" 30).trace
        = [Call.NewTxSimulator] ∧
      (TransferFunds (ConstructAppInstance
        (faultyLedger scenarioState (some "closed") noReadFault none)) "A" "B" 30).trace.count
        Call.Done = 0) :=
  ⟨(C14_done_exactly_once (memLedger scenarioState) [("A", 1)] "A" "B" 30).1 rfl,
    ⟨by decide, by decide, by decide⟩,
    (C14_done_exactly_once (faultyLedger scenarioState (some "closed") noReadFault none)
      [("A", 1)] "A" "B" 30).2 "closed" rfl⟩

/-- C15: lenient decode.  `toInt` returns a value of the 64-bit `int` type on every
byte sequence; and on every byte sequence with no terminating byte (a byte whose
high bit `0x80` is clear) among its first 10 bytes, whether it is empty, truncated
or an over-long run of continuation bytes, the decoder returns `(0, 0)` and `toInt`
returns 0. -/
theorem C15_lenient_decode (buf : Bytes) :
    isInt64 (toInt buf) ∧
      ((∀ b ∈ buf.take 10, b.val &&& 0x80 ≠ 0) →
        DecodeVarint buf = (0, 0) ∧ toInt buf = 0) := by
  constructor
  · exact intOfUint64_isInt64 (decodeVarintLoop_lt buf 0 0 0)
  · intro hall
    have h := decodeVarintLoop_no_terminator 10 buf 0 0 0 (by norm_num) hall
    refine ⟨h, ?_⟩
    simp only [toInt, DecodeVarint, h]
    rfl

/-- C15 (witness): the empty sequence, a lone continuation byte and eleven
continuation bytes followed by a terminating byte all decode to 0; ten bytes ending
in a terminating byte are well formed and decode to -1. -/
theorem C15_lenient_decode_witness :
    toInt [] = 0 ∧ toInt [0x80] = 0 ∧
      toInt [0xFF, 0xFF, 0xFF, 0xFF, 0xFF, 0xFF, 0xFF, 0xFF, 0xFF, 0xFF, 0xFF, 0x01] = 0 ∧
      toInt [0xFF, 0xFF, 0xFF, 0xFF, 0xFF, 0xFF, 0xFF, 0xFF, 0xFF, 0x01] = -1 :=
  ⟨((C15_lenient_decode []).2 (by decide)).2,
    ((C15_lenient_decode [0x80]).2 (by decide)).2,
    ((C15_lenient_decode
      [0xFF, 0xFF, 0xFF, 0xFF, 0xFF, 0xFF, 0xFF, 0xFF, 0xFF, 0xFF, 0xFF, 0x01]).2
      (by decide)).2,
    by decide⟩

/-- C16: the round trip extends to negative balances.  For every value `n` of the
64-bit `int` type, `toInt (toBytes n) = n`; `toBytes n` is the varint of `n` modulo
`2^64`, ten bytes long when `n` is negative; so a balance written under a key, as
`Init` and `TransferFunds` write it, is read back unchanged. -/
theorem C16_round_trip_all_ints (n : Int) (hn : isInt64 n) :
    toInt (toBytes n) = n ∧
      toBytes n = EncodeVarint (n % 2 ^ 64).toNat ∧
      (n < 0 → (n % 2 ^ 64).toNat = (n + 2 ^ 64).toNat ∧ (toBytes n).length = 10) ∧
      ∀ (st : LedgerState) (key : String),
        balance (applyWrites st [Call.SetState "PaymentApp" key (toBytes n)]) key = n := by
  have hrt : toInt (toBytes n) = n := by rw [toInt_toBytes, wrapInt_of_isInt64 hn]
  refine ⟨hrt, rfl, ?_, ?_⟩
  · intro hneg
    unfold isInt64 at hn
    have hmod : (n % 2 ^ 64).toNat = (n + 2 ^ 64).toNat := by omega
    refine ⟨hmod, ?_⟩
    have hge : 2 ^ (7 * 9) ≤ uint64OfInt n := by
      unfold uint64OfInt
      omega
    exact encodeVarintLoop_length 9 _ hge
  · intro st key
    simp [balance, applyWrites, applyCall, hrt]

/-- C16 (witness): -5 is encoded in ten bytes and decoded back; `Init` of {A: -5}
followed by a query of A gives -5; and the balance -10 that `TransferFunds(A, B,
-10)` writes for B on an empty ledger is read back as -10. -/
theorem C16_round_trip_all_ints_witness :
    toInt (toBytes (-5)) = -5 ∧ (toBytes (-5)).length = 10 ∧
      toInt (toBytes (-2 ^ 63)) = -2 ^ 63 ∧
      (QueryBalances (ConstructAppInstance (memLedger (applyWrites emptyState
        (Init (ConstructAppInstance (memLedger emptyState)) [("A", -5)]).trace)))
        ["A"]).value = some [-5] ∧
      (QueryBalances (ConstructAppInstance (memLedger (applyWrites emptyState
        (TransferFunds (ConstructAppInstance (memLedger emptyState)) "A" "B" (-10)).trace)))
        ["A", "B"]).value = some [10, -10] :=
  ⟨(C16_round_trip_all_ints (-5) (by decide)).1,
    ((C16_round_trip_all_ints (-5) (by decide)).2.2.1 (by decide)).2,
    (C16_round_trip_all_ints (-2 ^ 63) (by decide)).1,
    by decide, by decide⟩

/-- C17 (amended): self-transfer.  Let account `a` hold bytes decoding to `b`, let the
simulator open, let both reads of `a` succeed with the contents of the ledger and
let the extraction succeed.  For every amount with `b - amount >= 0`, with
`b - amount` within the `int` range and `b + amount` within the `int` range,
`TransferFunds(a, a, amount)` returns a proposal and no error, both reads observe
`b`, its writes are `a <- toBytes(b - amount)` and then `a <- toBytes(b + amount)`,
the last of which overwrites the first, and applying the writes in order leaves the
balance of `a` at `b + amount`. -/
theorem C17_self_transfer (L : ValidatedLedger) (st : LedgerState) (a : String)
    (amount : Int) (bytes1 bytes2 r : Bytes) (hreads : readsFrom L st)
    (hopen : L.NewTxSimulator [] = .ok ())
    (hread1 : L.GetState [Call.NewTxSimulator] "PaymentApp" a = .ok bytes1)
    (hread2 : L.GetState [Call.NewTxSimulator, Call.GetState "PaymentApp" a] "PaymentApp" a
      = .ok bytes2)
    (hcheck : 0 ≤ balance st a - amount) (hsub : isInt64 (balance st a - amount))
    (hadd : isInt64 (balance st a + amount))
    (hext : L.GetTxSimulationResults
      [Call.NewTxSimulator, Call.GetState "PaymentApp" a, Call.GetState "PaymentApp" a,
        Call.SetState "PaymentApp" a (toBytes (balance st a - amount)),
        Call.SetState "PaymentApp" a (toBytes (balance st a + amount))] = .ok r) :
    (TransferFunds (ConstructAppInstance L) a a amount).value = some (constructTransaction r) ∧
      (TransferFunds (ConstructAppInstance L) a a amount).err = none ∧
      toInt bytes1 = balance st a ∧ toInt bytes2 = balance st a ∧
      writesOf (TransferFunds (ConstructAppInstance L) a a amount).trace
        = [Call.SetState "PaymentApp" a (toBytes (balance st a - amount)),
            Call.SetState "PaymentApp" a (toBytes (balance st a + amount))] ∧
      (writesOf (TransferFunds (ConstructAppInstance L) a a amount).trace).getLast?
        = some (Call.SetState "PaymentApp" a (toBytes (balance st a + amount))) ∧
      balance (applyWrites st (TransferFunds (ConstructAppInstance L) a a amount).trace) a
        = balance st a + amount := by
  have e1 : bytes1 = st "PaymentApp" a := hreads _ _ _ _ hread1
  have e2 : bytes2 = st "PaymentApp" a := hreads _ _ _ _ hread2
  subst e1
  have e2b : toInt bytes2 = balance st a := by rw [e2]; rfl
  have hb : toInt (st "PaymentApp" a) = balance st a := rfl
  have hchk : ¬ wrapInt (toInt (st "PaymentApp" a) - amount) < 0 := by
    rw [hb, wrapInt_of_isInt64 hsub]; omega
  have htr := TransferFunds_past_check hopen hread1 hchk hread2
  rw [e2b, hb, wrapInt_of_isInt64 hsub, wrapInt_of_isInt64 hadd] at htr
  have hval : (TransferFunds (ConstructAppInstance L) a a amount).value
        = some (constructTransaction r) ∧
      (TransferFunds (ConstructAppInstance L) a a amount).err = none := by
    have hext1 : L.GetTxSimulationResults
        [Call.NewTxSimulator, Call.GetState "PaymentApp" a, Call.GetState "PaymentApp" a,
          Call.SetState "PaymentApp" a
            (toBytes (wrapInt (toInt (st "PaymentApp" a) - amount))),
          Call.SetState "PaymentApp" a
            (toBytes (wrapInt (toInt bytes2 + amount)))] = .ok r := by
      rw [e2b, hb, wrapInt_of_isInt64 hsub, wrapInt_of_isInt64 hadd]; exact hext
    simp [TransferFunds, ConstructAppInstance, hopen, hread1, hchk, hread2, hext1, deferDone]
  refine ⟨hval.1, hval.2, rfl, e2b, ?_, ?_, ?_⟩
  · rw [htr, writesOf_transferCalls]
  · rw [htr, writesOf_transferCalls]; rfl
  · rw [htr]
    simp only [balance, applyWrites_transferCalls_self, toInt_toBytes]
    exact wrapInt_of_isInt64 hadd

/-- C17 (witness): with A at 100, `TransferFunds(A, A, 30)` succeeds, writes A <- 70
and then A <- 130, and leaves A at 130. -/
theorem C17_self_transfer_witness :
    (TransferFunds (ConstructAppInstance (memLedger (stateOf [("A", 100)]))) "A" "A" 30).value
        = some (constructTransaction (toBytes 70 ++ toBytes 130)) ∧
      writesOf (TransferFunds (ConstructAppInstance (memLedger (stateOf [("A", 100)])))
        "A" "A" 30).trace
        = [Call.SetState "PaymentApp" "A" (toBytes (balance (stateOf [("A", 100)]) "A" - 30)),
            Call.SetState "PaymentApp" "A"
              (toBytes (balance (stateOf [("A", 100)]) "A" + 30))] ∧
      balance (applyWrites (stateOf [("A", 100)])
        (TransferFunds (ConstructAppInstance (memLedger (stateOf [("A", 100)])))
          "A" "A" 30).trace) "A" = balance (stateOf [("A", 100)]) "A" + 30 ∧
      balance (stateOf [("A", 100)]) "A" + 30 = 130 :=
  ⟨(C17_self_transfer (memLedger (stateOf [("A", 100)])) (stateOf [("A", 100)]) "A" 30
      (toBytes 100) (toBytes 100) (toBytes 70 ++ toBytes 130) (readsFrom_memLedger _) rfl
      (by decide) (by decide) (by decide) (by decide) (by decide) (by decide)).1,
    (C17_self_transfer (memLedger (stateOf [("A", 100)])) (stateOf [("A", 100)]) "A" 30
      (toBytes 100) (toBytes 100) (toBytes 70 ++ toBytes 130) (readsFrom_memLedger _) rfl
      (by decide) (by decide) (by decide) (by decide) (by decide) (by decide)).2.2.2.2.1,
    (C17_self_transfer (memLedger (stateOf [("A", 100)])) (stateOf [("A", 100)]) "A" 30
      (toBytes 100) (toBytes 100) (toBytes 70 ++ toBytes 130) (readsFrom_memLedger _) rfl
      (by decide) (by decide) (by decide) (by decide) (by decide) (by decide)).2.2.2.2.2.2,
    by decide⟩

/-- C17 (counterexample): with A at 2^62 and amount -2^62, `b - amount` is 2^63, which
is not negative, and `b + amount` is 0, within the `int` range; yet
`TransferFunds(A, A, -2^62)` is rejected with the insufficient-funds error and
returns no proposal, because the source computes `b - amount` in 64-bit arithmetic,
where it wraps around to -2^63. -/
theorem C17_self_transfer_counterexample :
    balance (stateOf [("A", 2 ^ 62)]) "A" = 2 ^ 62 ∧
      (0 : Int) ≤ balance (stateOf [("A", 2 ^ 62)]) "A" - (-2 ^ 62) ∧
      isInt64 (balance (stateOf [("A", 2 ^ 62)]) "A" + (-2 ^ 62)) ∧
      (TransferFunds (ConstructAppInstance (memLedger (stateOf [("A", 2 ^ 62)])))
        "A" "A" (-2 ^ 62)).value = none ∧
      (TransferFunds (ConstructAppInstance (memLedger (stateOf [("A", 2 ^ 62)])))
        "A" "A" (-2 ^ 62)).err = some (.notEnoughBalance "A" (2 ^ 62) (-2 ^ 62)) := by
  refine ⟨by decide, by decide, by decide, by decide, by decide⟩

end Example
